import Mathlib

/-!
Verification development for the CV/project evaluation service.

This file gives a shallow embedding, in Lean, of the parts of the source
code that the specification's claims are about:

* `src/utils/validator.py` — the JSON repair/validation cascade
  (`validate_and_repair_json`, `clean_json_string`,
  `extract_json_with_regex`, `fill_missing_fields`, `get_default_value`,
  `normalize_json_fields`, `validate_score_range`);
* `src/models/evaluate.py` — the `CVScoring` weighted score / match rate;
* `src/services/qdrant_service.py` — `get_evaluation_context`;
* `src/services/evaluation_pipeline_service.py` — the per-document
  retrieval loop of `_evaluate_cv`;
* `src/databases/redis.py` — the job store (`create_job_record`,
  `update_job_status`) over an explicit store state;
* `src/task.py` — the task-runner retry/backoff state machine.

Modelling conventions:

* Python / JSON values are the inductive `JValue`.  Python numbers are
  modelled exactly: `int` as `Int`, `float` as `Rat` (exact rational
  arithmetic; IEEE-754 rounding, `NaN` and infinities are outside the
  model — every numeric literal appearing in the source is an exact
  decimal).  The pydantic sentinel `PydanticUndefined` is `jUndef`,
  distinct from Python `None` (`jNull`).
* Python dicts are association lists `List (String × JValue)` with unique
  keys, preserving insertion order; assignment `d[k] = v` is `dictSet`
  (update in place, or append for a fresh key).
* Python exceptions are an `Except PyErr` result; a `try/except` clause
  that catches particular exception classes is an explicit match on the
  error kind.
* Regular-expression passes from the source are implemented as
  direct left-to-right scanners with the same match semantics
  (leftmost, non-overlapping, greedy where the pattern is greedy).
-/

/-- A Python/JSON value: `None`, `bool`, `int`, `float` (exact rational),
`str`, `list`, `dict`, and the pydantic `PydanticUndefined` sentinel. -/
inductive JValue where
  | jNull
  | jBool (b : Bool)
  | jInt (n : Int)
  | jFloat (q : Rat)
  | jStr (s : String)
  | jArr (xs : List JValue)
  | jObj (kvs : List (String × JValue))
  | jUndef
deriving Repr

/-- Exception kinds raised by the code under verification:
`json.JSONDecodeError`, `pydantic.ValidationError`, `TypeError`,
`ValueError`. -/
inductive PyErr where
  | decodeErr
  | validationErr
  | typeErr
  | valueErr
deriving Repr, DecidableEq

/-- Python whitespace for `str.strip()` and the regex class `\s`
(ASCII: space, tab, newline, carriage return, vertical tab, form feed). -/
def pyIsSpace (c : Char) : Bool :=
  c = ' ' || c = '\t' || c = '\n' || c = '\r' || c = '\x0b' || c = '\x0c'

/-- Drop leading whitespace from a character list. -/
def dropLeading (cs : List Char) : List Char := cs.dropWhile pyIsSpace

/-- Python `str.strip()`: remove leading and trailing whitespace. -/
def pyStrip (s : String) : String :=
  String.mk (((s.data.dropWhile pyIsSpace).reverse.dropWhile pyIsSpace).reverse)

/-- Word characters of the regex class `\w` (ASCII). -/
def isWordChar (c : Char) : Bool :=
  c.isAlpha || c.isDigit || c = '_'

/-- Does `pat` occur as a substring of `s` (Python `pat in s`)? -/
def containsSubstr (s pat : String) : Bool :=
  let rec go : List Char → Bool
    | [] => pat.data.isPrefixOf []
    | c :: rest => pat.data.isPrefixOf (c :: rest) || go rest
  go s.data

/-- The whitelist of score fields shared by `normalize_json_fields` and
`validate_score_range` in `src/utils/validator.py`. -/
def scoreFields : List String :=
  [ "technical_skills", "experience_level", "achievements", "cultural_fit",
    "correctness", "code_quality", "resilience", "documentation", "creativity"]

/-- Match the regex `-?\d+(?:\.\d+)?` anchored at the start of `cs`,
returning the matched token. -/
def matchNumAt (cs : List Char) : Option (List Char) :=
  let core : List Char → Option (List Char) := fun l =>
    let ds := l.takeWhile Char.isDigit
    if ds.isEmpty then none
    else
      match l.drop ds.length with
      | '.' :: rest2 =>
          let fs := rest2.takeWhile Char.isDigit
          if fs.isEmpty then some ds else some (ds ++ [ '.'] ++ fs)
      | _ => some ds
  match cs with
  | '-' :: rest => (core rest).map (fun t => '-' :: t)
  | _ => core cs

/-- Leftmost match of `-?\d+(?:\.\d+)?` anywhere in `cs`
(Python `re.search`). -/
def searchNum (fuel : Nat) (cs : List Char) : Option (List Char) :=
  match fuel with
  | 0 => none
  | fuel + 1 =>
    match matchNumAt cs with
    | some t => some t
    | none =>
      match cs with
      | [] => none
      | _ :: rest => searchNum fuel rest

/-- Leftmost match of `(?<!\d)([1-5])(?!\d)` in `cs`: a digit 1–5 with no
adjacent digits.  `prev` holds the previous character, if any. -/
def searchLoneDigit (fuel : Nat) (prev : Option Char) (cs : List Char) :
    Option Char :=
  match fuel with
  | 0 => none
  | fuel + 1 =>
    match cs with
    | [] => none
    | c :: rest =>
      if ('1' ≤ c && c ≤ '5')
          && !(match prev with | some p => p.isDigit | none => false)
          && !(match rest with | r :: _ => r.isDigit | [] => false) then
        some c
      else searchLoneDigit fuel (some c) rest

/-- Parse a token of digits with optional leading minus as an `Int`
(Python `int(...)` on such a token). -/
def parseIntToken (cs : List Char) : Int :=
  match cs with
  | '-' :: rest => - (rest.foldl (fun acc c => acc * 10 + (c.toNat - 48)) 0 : Nat)
  | _ => (cs.foldl (fun acc c => acc * 10 + (c.toNat - 48)) 0 : Nat)

/-- Parse a decimal token (optional minus, digits, optional fraction) as
an exact rational (Python `float(...)` on such a token, modelled exactly). -/
def parseDecToken (cs : List Char) : Rat :=
  let signed : Bool := match cs with | '-' :: _ => true | _ => false
  let body := match cs with | '-' :: rest => rest | l => l
  let ip := body.takeWhile Char.isDigit
  let fp := match body.drop ip.length with
    | '.' :: rest => rest.takeWhile Char.isDigit
    | _ => []
  let ipn : Nat := ip.foldl (fun acc c => acc * 10 + (c.toNat - 48)) 0
  let fpn : Nat := fp.foldl (fun acc c => acc * 10 + (c.toNat - 48)) 0
  let mag : Rat := (ipn : Rat) + (fpn : Rat) / ((10 : Rat) ^ fp.length)
  if signed then -mag else mag

/-- The number token chosen by `coerce_num` in `normalize_json_fields`:
first a leading `-?\d+(?:\.\d+)?`, else a lone digit 1–5, else the
leftmost number anywhere. -/
def findNumToken (s : String) : Option (List Char) :=
  match matchNumAt s.data with
  | some t => some t
  | none =>
    match searchLoneDigit (s.length + 1) none s.data with
    | some c => some [c]
    | none => searchNum (s.length + 1) s.data

/-- `coerce_num` from `normalize_json_fields`: numbers (including bools,
which are `int` instances in Python) pass through; a string is coerced to
`int`/`float` via the extracted number token, or returned unchanged. -/
def coerceNum (v : JValue) : JValue :=
  match v with
  | .jStr s =>
    match findNumToken (pyStrip s) with
    | some t =>
      if t.contains '.' then .jFloat (parseDecToken t) else .jInt (parseIntToken t)
    | none => v
  | _ => v

/-- One pair of the main loop of `normalize_json_fields`: coerce known
score fields, coerce score subfields of a `scores` dict, strip other
string values, leave everything else unchanged. -/
def normPair (p : String × JValue) : String × JValue :=
  if p.1 ∈ scoreFields then (p.1, coerceNum p.2)
  else
    match p.2 with
    | .jObj kvs =>
      if p.1 = "scores" then
        (p.1, .jObj (kvs.map (fun q =>
          if q.1 ∈ scoreFields then (q.1, coerceNum q.2) else q)))
      else p
    | .jStr s => (p.1, .jStr (pyStrip s))
    | _ => p

-- Python `str(x)` for the values a `reasoning` list may hold (containers
-- render via `repr`).
mutual

def pyStr : JValue → String
  | .jNull => "None"
  | .jBool true => "True"
  | .jBool false => "False"
  | .jInt n => toString n
  | .jFloat q => if q.den = 1 then toString q.num ++ ".0" else toString q
  | .jStr s => s
  | .jArr xs => "[" ++ pyReprList xs ++ "]"
  | .jObj kvs => "\x7b" ++ pyReprPairs kvs ++ "\x7d"
  | .jUndef => "PydanticUndefined"

def pyRepr : JValue → String
  | .jStr s => String.singleton (Char.ofNat 39) ++ s ++ String.singleton (Char.ofNat 39)
  | v => pyStr v

def pyReprList : List JValue → String
  | [] => ""
  | [x] => pyRepr x
  | x :: y :: rest => pyRepr x ++ ", " ++ pyReprList (y :: rest)

def pyReprPairs : List (String × JValue) → String
  | [] => ""
  | [(k, v)] => pyRepr (.jStr k) ++ ": " ++ pyRepr v
  | (k, v) :: q :: rest => pyRepr (.jStr k) ++ ": " ++ pyRepr v ++ ", " ++ pyReprPairs (q :: rest)

end

/-- The summary string `"; ".join([str(x).strip() for x in rv if str(x).strip()])`. -/
def joinNonEmpty (xs : List JValue) : String :=
  String.intercalate "; "
    ((xs.map (fun x => pyStrip (pyStr x))).filter (fun t => t ≠ ""))

/-- The detail mapping built by enumerating a `reasoning` list. -/
def itemPairs (xs : List JValue) : List (String × JValue) :=
  (List.range xs.length).zip xs |>.map
    (fun p => ( "item_" ++ toString (p.1 + 1), .jStr (pyStrip (pyStr p.2))))

/-- The `reasoning` transformation of `normalize_json_fields`: a string
with non-whitespace content is wrapped into a summary dict, a list is
joined into summary plus indexed details, `None` becomes the empty dict,
anything else (including an empty or whitespace-only string) is left
unchanged. -/
def reasoningTrans (v : JValue) : JValue :=
  match v with
  | .jStr s =>
    if pyStrip s ≠ "" then .jObj [("summary", .jStr (pyStrip s))] else v
  | .jArr xs =>
    .jObj [("summary", .jStr (joinNonEmpty xs)), ("details", .jObj (itemPairs xs))]
  | .jNull => .jObj []
  | _ => v

/-- Update the first entry with key `k` by `f` (Python in-place
`data[k] = f(data[k])` when `k` is present; no-op when absent). -/
def updateFirst (k : String) (f : JValue → JValue) :
    List (String × JValue) → List (String × JValue)
  | [] => []
  | (k2, v) :: rest =>
    if k2 = k then (k2, f v) :: rest else (k2, v) :: updateFirst k f rest

/-- First-occurrence lookup in an association list (Python `data[k]` /
`k in data` on a dict). -/
def lookupFirst (k : String) : List (String × JValue) → Option JValue
  | [] => none
  | (k2, v) :: rest => if k2 = k then some v else lookupFirst k rest

/-- Is key `k` present (Python `k in data` for a dict)? -/
def containsKey (k : String) (l : List (String × JValue)) : Bool :=
  (lookupFirst k l).isSome

/-- Python dict assignment `d[k] = v`: update in place if present,
append otherwise. -/
def dictSet (l : List (String × JValue)) (k : String) (v : JValue) :
    List (String × JValue) :=
  if containsKey k l then updateFirst k (fun _ => v) l else l ++ [(k, v)]

/-- `normalize_json_fields` restricted to a dict's pair list: the main
loop followed by the `reasoning` step. -/
def normObj (l : List (String × JValue)) : List (String × JValue) :=
  updateFirst "reasoning" reasoningTrans (l.map normPair)

/-- `normalize_json_fields` from `src/utils/validator.py`: non-dicts are
returned unchanged. -/
def normalize_json_fields (v : JValue) : JValue :=
  match v with
  | .jObj l => .jObj (normObj l)
  | _ => v

/-- Python `round` on an exact rational: round half to even. -/
def pyRound (q : Rat) : Int :=
  if q - (⌊q⌋ : Int) < 1/2 then ⌊q⌋
  else if (1 : Rat)/2 < q - (⌊q⌋ : Int) then ⌊q⌋ + 1
  else if ⌊q⌋ % 2 = 0 then ⌊q⌋ else ⌊q⌋ + 1

/-- The per-value clamp of `validate_score_range`: numeric values below 1
become 1, above 5 become 5, in-range values are rounded (`round(int)` is
the identity; Python bools are numeric with values 0/1). -/
def clampVal (v : JValue) : JValue :=
  match v with
  | .jInt n => if n < 1 then .jInt 1 else if n > 5 then .jInt 5 else .jInt n
  | .jFloat q => if q < 1 then .jInt 1 else if q > 5 then .jInt 5 else .jInt (pyRound q)
  | .jBool b => if b then .jInt 1 else .jInt 1
  | _ => v

/-- One pair of the `validate_score_range` loop over a dict. -/
def clampPair (p : String × JValue) : String × JValue :=
  if p.1 ∈ scoreFields then (p.1, clampVal p.2) else p

/-- `validate_score_range` restricted to a dict's pair list (total there). -/
def clampObj (l : List (String × JValue)) : List (String × JValue) :=
  l.map clampPair

/-- `validate_score_range` from `src/utils/validator.py` on an arbitrary
parsed JSON value.  On non-dicts the membership test `field in data`
either succeeds vacuously (lists and strings not mentioning a score
field), raises `TypeError` on indexing (`data[field]` on a list or
string), or raises `TypeError` outright (non-iterable values). -/
def validate_score_range (v : JValue) : Except PyErr JValue :=
  match v with
  | .jObj l => .ok (.jObj (clampObj l))
  | .jArr xs =>
    if scoreFields.any (fun f => xs.any (fun x =>
        match x with | .jStr s => s == f | _ => false)) then
      .error .typeErr
    else .ok v
  | .jStr s =>
    if scoreFields.any (fun f => containsSubstr s f) then .error .typeErr
    else .ok v
  | _ => .error .typeErr

/-! ### `clean_json_string` — the five regex passes, as scanners -/

/-- The backquote character (0x60). -/
def bq : Char := Char.ofNat 96

/-- Pass 1 of `clean_json_string`: `re.sub(r'```json\s*', '', s)` —
delete each code-fence opener together with the following whitespace run. -/
def stripFenceJson (fuel : Nat) (cs : List Char) : List Char :=
  match fuel with
  | 0 => cs
  | fuel + 1 =>
    match cs with
    | [] => []
    | c :: rest =>
      if [bq, bq, bq, 'j', 's', 'o', 'n'].isPrefixOf (c :: rest) then
        stripFenceJson fuel (((c :: rest).drop 7).dropWhile pyIsSpace)
      else c :: stripFenceJson fuel rest

/-- Pass 2: `re.sub(r'```\s*', '', s)`. -/
def stripFence (fuel : Nat) (cs : List Char) : List Char :=
  match fuel with
  | 0 => cs
  | fuel + 1 =>
    match cs with
    | [] => []
    | c :: rest =>
      if [bq, bq, bq].isPrefixOf (c :: rest) then
        stripFence fuel (((c :: rest).drop 3).dropWhile pyIsSpace)
      else c :: stripFence fuel rest

/-- Pass 4: `re.sub(r',(\s*[}\]])', r'\1', s)` — drop a comma standing
before (whitespace and) a closing bracket; single left-to-right pass,
resuming after each replacement. -/
def fixTrailingCommas (fuel : Nat) (cs : List Char) : List Char :=
  match fuel with
  | 0 => cs
  | fuel + 1 =>
    match cs with
    | [] => []
    | c :: rest =>
      if c = ',' then
        let ws := rest.takeWhile pyIsSpace
        match rest.drop ws.length with
        | b :: rest2 =>
          if b = '\x7d' || b = ']' then ws ++ b :: fixTrailingCommas fuel rest2
          else c :: fixTrailingCommas fuel rest
        | [] => c :: fixTrailingCommas fuel rest
      else c :: fixTrailingCommas fuel rest

/-- Pass 5: `re.sub(r'"\s*\n\s*"', '",\n"', s)` — two quotes separated by
whitespace containing a newline become `",\n"`. -/
def fixMissingCommas (fuel : Nat) (cs : List Char) : List Char :=
  match fuel with
  | 0 => cs
  | fuel + 1 =>
    match cs with
    | [] => []
    | c :: rest =>
      if c = '"' then
        let ws := rest.takeWhile pyIsSpace
        match rest.drop ws.length with
        | '"' :: rest2 =>
          if ws.contains '\n' then
            '"' :: ',' :: '\n' :: '"' :: fixMissingCommas fuel rest2
          else c :: fixMissingCommas fuel rest
        | _ => c :: fixMissingCommas fuel rest
      else c :: fixMissingCommas fuel rest

/-- Pass 6: `re.sub(r'//.*?\n', '\n', s)` — delete from `//` to the end
of line (the newline survives via the replacement). -/
def stripLineComments (fuel : Nat) (cs : List Char) : List Char :=
  match fuel with
  | 0 => cs
  | fuel + 1 =>
    match cs with
    | [] => []
    | '/' :: '/' :: rest =>
      let pre := rest.takeWhile (fun c => c ≠ '\n')
      match rest.drop pre.length with
      | '\n' :: rest2 => '\n' :: stripLineComments fuel rest2
      | _ => '/' :: stripLineComments fuel ('/' :: rest)
    | c :: rest => c :: stripLineComments fuel rest

/-- Remainder after the first `*/`, if any (the lazy `.*?` of the
block-comment regex). -/
def afterBlockClose (fuel : Nat) (cs : List Char) : Option (List Char) :=
  match fuel with
  | 0 => none
  | fuel + 1 =>
    match cs with
    | '*' :: '/' :: rest => some rest
    | _ :: rest => afterBlockClose fuel rest
    | [] => none

/-- Pass 7: `re.sub(r'/\*.*?\*/', '', s, flags=re.DOTALL)`. -/
def stripBlockComments (fuel : Nat) (cs : List Char) : List Char :=
  match fuel with
  | 0 => cs
  | fuel + 1 =>
    match cs with
    | [] => []
    | '/' :: '*' :: rest =>
      match afterBlockClose (rest.length + 1) rest with
      | some rest2 => stripBlockComments fuel rest2
      | none => '/' :: stripBlockComments fuel ('*' :: rest)
    | c :: rest => c :: stripBlockComments fuel rest

/-- `clean_json_string` from `src/utils/validator.py`: fence removal,
strip, trailing-comma fix, missing-comma fix, comment removal, in the
source's order. -/
def clean_json_string (s : String) : String :=
  let a := stripFenceJson (s.length + 1) s.data
  let b := stripFence (a.length + 1) a
  let c := (pyStrip (String.mk b)).data
  let d := fixTrailingCommas (c.length + 1) c
  let e := fixMissingCommas (d.length + 1) d
  let f := stripLineComments (e.length + 1) e
  let g := stripBlockComments (f.length + 1) f
  String.mk g

/-! ### `json.loads` / `json.dumps` (strict JSON; `NaN`/`Infinity` and
IEEE rounding are outside the model — numbers are exact rationals) -/

/-- Hex digit value, if the character is one. -/
def hexVal (c : Char) : Option Nat :=
  if '0' ≤ c && c ≤ '9' then some (c.toNat - 48)
  else if 'a' ≤ c && c ≤ 'f' then some (c.toNat - 87)
  else if 'A' ≤ c && c ≤ 'F' then some (c.toNat - 55)
  else none

/-- Parse the body of a JSON string after the opening quote:
characters up to the closing quote, with the standard escapes
(`\" \\ \/ \b \f \n \r \t \uXXXX`); unescaped control characters are
rejected as strict `json.loads` does. -/
def parseJStr (fuel : Nat) (acc : List Char) (cs : List Char) :
    Option (String × List Char) :=
  match fuel with
  | 0 => none
  | fuel + 1 =>
    match cs with
    | [] => none
    | '"' :: rest => some (String.mk acc.reverse, rest)
    | '\\' :: e :: rest =>
      match e with
      | '"' => parseJStr fuel ('"' :: acc) rest
      | '\\' => parseJStr fuel ('\\' :: acc) rest
      | '/' => parseJStr fuel ('/' :: acc) rest
      | 'b' => parseJStr fuel ('\x08' :: acc) rest
      | 'f' => parseJStr fuel ('\x0c' :: acc) rest
      | 'n' => parseJStr fuel ('\n' :: acc) rest
      | 'r' => parseJStr fuel ('\r' :: acc) rest
      | 't' => parseJStr fuel ('\t' :: acc) rest
      | 'u' =>
        match rest with
        | h1 :: h2 :: h3 :: h4 :: rest2 =>
          match hexVal h1, hexVal h2, hexVal h3, hexVal h4 with
          | some a, some b, some c, some d =>
            parseJStr fuel (Char.ofNat (((a * 16 + b) * 16 + c) * 16 + d) :: acc) rest2
          | _, _, _, _ => none
        | _ => none
      | _ => none
    | c :: rest =>
      if c.toNat < 32 then none else parseJStr fuel (c :: acc) rest

/-- Parse a JSON number at the head of `cs` (strict grammar:
`-?(0|[1-9]\d*)(\.\d+)?([eE][+-]?\d+)?`); integer literals give `jInt`,
fraction or exponent give `jFloat`. -/
def parseJNum (cs : List Char) : Option (JValue × List Char) :=
  let signed : Bool := match cs with | '-' :: _ => true | _ => false
  let body := match cs with | '-' :: rest => rest | l => l
  let ip := body.takeWhile Char.isDigit
  if ip.isEmpty then none
  else if ip.length > 1 && ip.headD '0' = '0' then none
  else
    let afterInt := body.drop ip.length
    let ipn : Nat := ip.foldl (fun acc c => acc * 10 + (c.toNat - 48)) 0
    let fracPart : Option (List Char × List Char) :=
      match afterInt with
      | '.' :: rest =>
        let fs := rest.takeWhile Char.isDigit
        if fs.isEmpty then none else some (fs, rest.drop fs.length)
      | _ => some ([], afterInt)
    match fracPart with
    | none => none
    | some (fs, afterFrac) =>
      let expPart : Option (Int × List Char) :=
        match afterFrac with
        | 'e' :: rest | 'E' :: rest =>
          let esign : Int := match rest with | '-' :: _ => -1 | _ => 1
          let erest := match rest with | '-' :: r => r | '+' :: r => r | r => r
          let es := erest.takeWhile Char.isDigit
          if es.isEmpty then none
          else some (esign * (es.foldl (fun acc c => acc * 10 + (c.toNat - 48)) 0 : Nat),
                     erest.drop es.length)
        | _ => some (0, afterFrac)
      match expPart with
      | none => none
      | some (ex, rest) =>
        let hasFrac := !fs.isEmpty
        let hasExp := match afterFrac with | 'e' :: _ | 'E' :: _ => true | _ => false
        let fpn : Nat := fs.foldl (fun acc c => acc * 10 + (c.toNat - 48)) 0
        let mag : Rat := ((ipn : Rat) + (fpn : Rat) / ((10 : Rat) ^ fs.length))
                         * ((10 : Rat) ^ ex : Rat)
        let sgn : Rat := if signed then -1 else 1
        if hasFrac || hasExp then some (.jFloat (sgn * mag), rest)
        else some (.jInt (if signed then -(ipn : Int) else (ipn : Int)), rest)

mutual

def parseJVal (fuel : Nat) (cs : List Char) : Option (JValue × List Char) :=
  match fuel with
  | 0 => none
  | fuel + 1 =>
    match dropLeading cs with
    | [] => none
    | '\x7b' :: rest =>
      (match dropLeading rest with
       | '\x7d' :: rest2 => some (.jObj [], rest2)
       | _ => (parseJMembers fuel [] rest).map (fun p => (.jObj p.1.reverse, p.2)))
    | '[' :: rest =>
      (match dropLeading rest with
       | ']' :: rest2 => some (.jArr [], rest2)
       | _ => (parseJElems fuel [] rest).map (fun p => (.jArr p.1.reverse, p.2)))
    | '"' :: rest => (parseJStr (rest.length + 1) [] rest).map (fun p => (.jStr p.1, p.2))
    | 't' :: 'r' :: 'u' :: 'e' :: rest => some (.jBool true, rest)
    | 'f' :: 'a' :: 'l' :: 's' :: 'e' :: rest => some (.jBool false, rest)
    | 'n' :: 'u' :: 'l' :: 'l' :: rest => some (.jNull, rest)
    | l => parseJNum l

def parseJMembers (fuel : Nat) (acc : List (String × JValue)) (cs : List Char) :
    Option (List (String × JValue) × List Char) :=
  match fuel with
  | 0 => none
  | fuel + 1 =>
    match dropLeading cs with
    | '"' :: rest =>
      match parseJStr (rest.length + 1) [] rest with
      | none => none
      | some (k, rest2) =>
        match dropLeading rest2 with
        | ':' :: rest3 =>
          match parseJVal fuel rest3 with
          | none => none
          | some (v, rest4) =>
            match dropLeading rest4 with
            | ',' :: rest5 => parseJMembers fuel ((k, v) :: acc) rest5
            | '\x7d' :: rest5 => some ((k, v) :: acc, rest5)
            | _ => none
        | _ => none
    | _ => none

def parseJElems (fuel : Nat) (acc : List JValue) (cs : List Char) :
    Option (List JValue × List Char) :=
  match fuel with
  | 0 => none
  | fuel + 1 =>
    match parseJVal fuel cs with
    | none => none
    | some (v, rest) =>
      match dropLeading rest with
      | ',' :: rest2 => parseJElems fuel (v :: acc) rest2
      | ']' :: rest2 => some (v :: acc, rest2)
      | _ => none

end

/-- `json.loads`: parse the whole string as one JSON value; anything
unparsable raises `json.JSONDecodeError`. -/
def pyJsonLoads (s : String) : Except PyErr JValue :=
  match parseJVal (2 * s.length + 8) s.data with
  | some (v, rest) => if (dropLeading rest).isEmpty then .ok v else .error .decodeErr
  | none => .error .decodeErr

/-- Four-digit lowercase hex rendering for `\uXXXX` escapes. -/
def hex4 (n : Nat) : String :=
  let d : Nat → Char := fun k => if k < 10 then Char.ofNat (48 + k) else Char.ofNat (87 + k)
  String.mk [d (n / 4096 % 16), d (n / 256 % 16), d (n / 16 % 16), d (n % 16)]

/-- `json.dumps` escaping of one character (`ensure_ascii=True` default;
code points above the BMP are outside the model). -/
def dumpChar (c : Char) : String :=
  if c = '"' then "\\\""
  else if c = '\\' then "\\\\"
  else if c = '\n' then "\\n"
  else if c = '\t' then "\\t"
  else if c = '\r' then "\\r"
  else if c = '\x08' then "\\b"
  else if c = '\x0c' then "\\f"
  else if c.toNat < 32 || c.toNat > 126 then "\\u" ++ hex4 c.toNat
  else String.singleton c

/-- `json.dumps` rendering of a string. -/
def dumpStr (s : String) : String :=
  "\"" ++ String.join (s.data.map dumpChar) ++ "\""

/-- Decimal rendering of an exact rational standing for a Python float
(`repr(float)`); the rationals in scope all have finite decimal form. -/
def dumpFloat (q : Rat) : String :=
  if q.den = 1 then toString q.num ++ ".0"
  else
    let rec go (k : Nat) : String :=
      match k with
      | 0 => toString q.num ++ "/" ++ toString q.den
      | k + 1 =>
        let p : Nat := 18 - (k + 1)
        if ((q * (10 : Rat) ^ (p + 1)).den = 1) then
          let scaled : Int := (q * (10 : Rat) ^ (p + 1)).num
          let mag : Nat := scaled.natAbs
          let digits := toString mag
          let digits := if digits.length ≤ p + 1 then
              String.mk (List.replicate (p + 2 - digits.length) '0') ++ digits
            else digits
          let point := digits.length - (p + 1)
          (if scaled < 0 then "-" else "") ++
            (digits.take point) ++ "." ++ (digits.drop point)
        else go k
      termination_by k
    go 18

mutual

def jsonDumps : JValue → String
  | .jNull => "null"
  | .jBool true => "true"
  | .jBool false => "false"
  | .jInt n => toString n
  | .jFloat q => dumpFloat q
  | .jStr s => dumpStr s
  | .jArr xs => "[" ++ jsonDumpsList xs ++ "]"
  | .jObj kvs => "\x7b" ++ jsonDumpsPairs kvs ++ "\x7d"
  | .jUndef => "PydanticUndefined"

def jsonDumpsList : List JValue → String
  | [] => ""
  | [x] => jsonDumps x
  | x :: y :: rest => jsonDumps x ++ ", " ++ jsonDumpsList (y :: rest)

def jsonDumpsPairs : List (String × JValue) → String
  | [] => ""
  | [(k, v)] => dumpStr k ++ ": " ++ jsonDumps v
  | (k, v) :: q :: rest => dumpStr k ++ ": " ++ jsonDumps v ++ ", " ++ jsonDumpsPairs (q :: rest)

end

/-! ### Pydantic models (v2, lax mode), as declared field schemas -/

/-- The Python type annotation of a pydantic field, as used by the models
in `src/models/evaluate.py` and by `get_default_value`'s checks. -/
inductive FType where
  | intBounded (lo hi : Int)
  | intPlain
  | floatPlain
  | strPlain
  | optStr
deriving Repr, DecidableEq

/-- One declared pydantic field.  `fdefault` models `FieldInfo.default`:
`jUndef` is the `PydanticUndefined` sentinel carried by required fields
(those declared `Field(...)` with no default), `jNull` models an explicit
`= None` default. -/
structure FieldSpec where
  name : String
  ftype : FType
  fdefault : JValue

/-- A pydantic model class, reduced to its declared fields. -/
structure ModelSchema where
  fields : List FieldSpec

/-- `CVScoring` from `src/models/evaluate.py`: four required integer
scores with `ge=1, le=5`. -/
def CVScoringSchema : ModelSchema :=
  ⟨[⟨ "technical_skills", .intBounded 1 5, .jUndef⟩,
    ⟨ "experience_level", .intBounded 1 5, .jUndef⟩,
    ⟨ "achievements", .intBounded 1 5, .jUndef⟩,
    ⟨ "cultural_fit", .intBounded 1 5, .jUndef⟩]⟩

/-- `ProjectScoring` from `src/models/evaluate.py`. -/
def ProjectScoringSchema : ModelSchema :=
  ⟨[⟨ "correctness", .intBounded 1 5, .jUndef⟩,
    ⟨ "code_quality", .intBounded 1 5, .jUndef⟩,
    ⟨ "resilience", .intBounded 1 5, .jUndef⟩,
    ⟨ "documentation", .intBounded 1 5, .jUndef⟩,
    ⟨ "creativity", .intBounded 1 5, .jUndef⟩]⟩

/-- Pydantic lax coercion of a string to `int`: surrounding whitespace
allowed, then an optional sign and digits. -/
def pyParseIntStr (s : String) : Option Int :=
  let t := (pyStrip s).data
  let body := match t with | '-' :: rest => rest | '+' :: rest => rest | l => l
  if body.isEmpty || body.any (fun c => !c.isDigit) then none
  else
    let n : Nat := body.foldl (fun acc c => acc * 10 + (c.toNat - 48)) 0
    some (match t with | '-' :: _ => -(n : Int) | _ => (n : Int))

/-- Pydantic v2 lax validation of one field value against its annotation
(bounds from `Field(ge=..., le=...)` included).  `PydanticUndefined`
passed as an explicit value fails validation. -/
def validateField (ft : FType) (v : JValue) : Except PyErr JValue :=
  match ft with
  | .intBounded lo hi =>
    match v with
    | .jInt n => if lo ≤ n && n ≤ hi then .ok (.jInt n) else .error .validationErr
    | .jFloat q =>
      if q.den = 1 then
        (if lo ≤ q.num && q.num ≤ hi then .ok (.jInt q.num) else .error .validationErr)
      else .error .validationErr
    | .jStr s =>
      match pyParseIntStr s with
      | some n => if lo ≤ n && n ≤ hi then .ok (.jInt n) else .error .validationErr
      | none => .error .validationErr
    | _ => .error .validationErr
  | .intPlain =>
    match v with
    | .jInt n => .ok (.jInt n)
    | .jFloat q => if q.den = 1 then .ok (.jInt q.num) else .error .validationErr
    | .jStr s =>
      match pyParseIntStr s with
      | some n => .ok (.jInt n)
      | none => .error .validationErr
    | _ => .error .validationErr
  | .floatPlain =>
    match v with
    | .jFloat q => .ok (.jFloat q)
    | .jInt n => .ok (.jFloat (n : Rat))
    | .jStr s =>
      match matchNumAt (pyStrip s).data with
      | some t =>
        if t.length = (pyStrip s).length then .ok (.jFloat (parseDecToken t))
        else .error .validationErr
      | none => .error .validationErr
    | _ => .error .validationErr
  | .strPlain =>
    match v with
    | .jStr s => .ok (.jStr s)
    | _ => .error .validationErr
  | .optStr =>
    match v with
    | .jStr s => .ok (.jStr s)
    | .jNull => .ok .jNull
    | _ => .error .validationErr

/-- `expected_model(**data).model_dump()`: `**` on a non-mapping raises
`TypeError`; on a dict, each declared field is validated (missing
required fields, and any failing coercion, raise `ValidationError`),
extra keys are ignored, and the dump lists the declared fields in
declaration order. -/
def modelValidate (m : ModelSchema) (v : JValue) : Except PyErr JValue :=
  match v with
  | .jObj l =>
    let step : Except PyErr (List (String × JValue)) → FieldSpec →
        Except PyErr (List (String × JValue)) := fun acc f =>
      match acc with
      | .error e => .error e
      | .ok done =>
        match lookupFirst f.name l with
        | some x =>
          match validateField f.ftype x with
          | .ok y => .ok (done ++ [(f.name, y)])
          | .error e => .error e
        | none =>
          match f.fdefault with
          | .jUndef => .error .validationErr
          | d => .ok (done ++ [(f.name, d)])
    (m.fields.foldl step (.ok [])).map .jObj
  | _ => .error .typeErr

/-! ### `extract_json_with_regex`, `get_default_value`,
`fill_missing_fields` -/

/-- Match `"?(\w+)"?\s*:\s*(\d)` (the integer-score pattern) at the head
of `cs`; returns field name, digit value, and the remainder after the
match. -/
def matchScoreAt (cs : List Char) : Option (String × Int × List Char) :=
  let start := match cs with
    | '"' :: rest => rest
    | l => l
  let w := start.takeWhile isWordChar
  if w.isEmpty then none
  else
    let l2 := start.drop w.length
    let l3 := match l2 with | '"' :: r => r | l => l
    match l3.dropWhile pyIsSpace with
    | ':' :: l5 =>
      match l5.dropWhile pyIsSpace with
      | d :: rest => if d.isDigit then some (String.mk w, ((d.toNat - 48 : Nat) : Int), rest) else none
      | [] => none
    | _ => none

/-- All matches of the integer-score pattern, left to right,
non-overlapping (`re.finditer`). -/
def scanScores (fuel : Nat) (cs : List Char) : List (String × Int) :=
  match fuel with
  | 0 => []
  | fuel + 1 =>
    match cs with
    | [] => []
    | c :: rest =>
      match matchScoreAt (c :: rest) with
      | some (fld, n, after) => (fld, n) :: scanScores fuel after
      | none => scanScores fuel rest

/-- Match `"?(\w+)"?\s*:\s*(\d+\.?\d*)` (the float pattern) at the head
of `cs`. -/
def matchFloatAt (cs : List Char) : Option (String × Rat × List Char) :=
  let start := match cs with
    | '"' :: rest => rest
    | l => l
  let w := start.takeWhile isWordChar
  if w.isEmpty then none
  else
    let l2 := start.drop w.length
    let l3 := match l2 with | '"' :: r => r | l => l
    match l3.dropWhile pyIsSpace with
    | ':' :: l5 =>
      let l6 := l5.dropWhile pyIsSpace
      let ds := l6.takeWhile Char.isDigit
      if ds.isEmpty then none
      else
        let l7 := l6.drop ds.length
        match l7 with
        | '.' :: l8 =>
          let fs := l8.takeWhile Char.isDigit
          some (String.mk w, parseDecToken (ds ++ [ '.'] ++ fs), l8.drop fs.length)
        | _ => some (String.mk w, parseDecToken ds, l7)
    | _ => none

/-- All matches of the float pattern (`re.finditer`). -/
def scanFloats (fuel : Nat) (cs : List Char) : List (String × Rat) :=
  match fuel with
  | 0 => []
  | fuel + 1 =>
    match cs with
    | [] => []
    | c :: rest =>
      match matchFloatAt (c :: rest) with
      | some (fld, q, after) => (fld, q) :: scanFloats fuel after
      | none => scanFloats fuel rest

/-- Match `"(\w+)"\s*:\s*"([^"]*)"` (the quoted-string pattern; the
multi-line variant `"([^"]*(?:\n[^"]*)*)"` matches the same texts, since
`[^"]` already includes newlines) at the head of `cs`. -/
def matchStrAt (cs : List Char) : Option (String × String × List Char) :=
  match cs with
  | '"' :: l =>
    let w := l.takeWhile isWordChar
    if w.isEmpty then none
    else
      match l.drop w.length with
      | '"' :: l3 =>
        match l3.dropWhile pyIsSpace with
        | ':' :: l5 =>
          match l5.dropWhile pyIsSpace with
          | '"' :: l7 =>
            let content := l7.takeWhile (fun c => c ≠ '"')
            match l7.drop content.length with
            | '"' :: rest => some (String.mk w, String.mk content, rest)
            | _ => none
          | _ => none
        | _ => none
      | _ => none
  | _ => none

/-- All matches of the quoted-string pattern (`re.finditer`). -/
def scanStrs (fuel : Nat) (cs : List Char) : List (String × String) :=
  match fuel with
  | 0 => []
  | fuel + 1 =>
    match cs with
    | [] => []
    | c :: rest =>
      match matchStrAt (c :: rest) with
      | some (fld, v, after) => (fld, v) :: scanStrs fuel after
      | none => scanStrs fuel rest

/-- `extract_json_with_regex` from `src/utils/validator.py`: four passes
over the raw text against the model's declared field names — integer
scores (overwriting), floats (only if absent), quoted strings
(overwriting), and the multi-line variant (only if absent, with newlines
collapsed; its match set coincides with the plain string pattern). -/
def extract_json_with_regex (text : String) (m : ModelSchema) :
    List (String × JValue) :=
  let names := m.fields.map (fun f => f.name)
  let cs := text.data
  let fuel := text.length + 1
  let r1 := (scanScores fuel cs).foldl
    (fun acc p => if names.contains p.1 then dictSet acc p.1 (.jInt p.2) else acc) []
  let r2 := (scanFloats fuel cs).foldl
    (fun acc p =>
      if names.contains p.1 && !containsKey p.1 acc then dictSet acc p.1 (.jFloat p.2)
      else acc) r1
  let r3 := (scanStrs fuel cs).foldl
    (fun acc p => if names.contains p.1 then dictSet acc p.1 (.jStr p.2) else acc) r2
  let r4 := (scanStrs fuel cs).foldl
    (fun acc p =>
      if names.contains p.1 && !containsKey p.1 acc then
        dictSet acc p.1 (.jStr (pyStrip (p.2.replace "\n" " ")))
      else acc) r3
  r4

/-- `get_default_value` from `src/utils/validator.py`.  The first guard
is the source's `if field_info.default is not None` — for a required
field the default is `PydanticUndefined` (`jUndef`), which is *not*
`None`, so the sentinel itself is returned and the name-based defaults
below are unreachable for required fields.  (The `__origin__ is
type(None)` check is false for every annotation occurring in the
models.) -/
def get_default_value (name : String) (ft : FType) (fdefault : JValue) : JValue :=
  match fdefault with
  | .jNull =>
    if containsSubstr name.toLower "score" || scoreFields.contains name then .jInt 3
    else if containsSubstr name.toLower "feedback" || containsSubstr name.toLower "summary" then
      .jStr "Evaluation incomplete - please review manually"
    else if containsSubstr name.toLower "rate" then .jFloat (6 / 10)
    else
      match ft with
      | .strPlain => .jStr ""
      | .intPlain => .jInt 0
      | .intBounded _ _ => .jInt 0
      | .floatPlain => .jFloat 0
      | .optStr => .jNull
  | d => d

/-- `fill_missing_fields` from `src/utils/validator.py`: append a default
for every declared field absent from the data. -/
def fill_missing_fields (data : List (String × JValue)) (m : ModelSchema) :
    List (String × JValue) :=
  m.fields.foldl
    (fun acc f =>
      if containsKey f.name acc then acc
      else acc ++ [(f.name, get_default_value f.name f.ftype f.fdefault)])
    data

/-! ### `validate_and_repair_json` — the four-stage cascade -/

/-- The body shared by stages 1 and 2: parse, normalize, clamp, validate.
Raises `JSONDecodeError` (parse), `TypeError` (`validate_score_range` on
a non-dict, or `**` on a non-mapping), or `ValidationError`. -/
def stageParse (s : String) (m : ModelSchema) : Except PyErr JValue :=
  match pyJsonLoads s with
  | .error e => .error e
  | .ok data =>
    match validate_score_range (normalize_json_fields data) with
    | .error e => .error e
    | .ok d2 => modelValidate m d2

/-- The exception classes caught by the `except` clauses of stages 1
and 2: `json.JSONDecodeError` and `pydantic.ValidationError` only. -/
def catchable (e : PyErr) : Bool :=
  match e with
  | .decodeErr => true
  | .validationErr => true
  | _ => false

/-- Stage 3: regex extraction, then normalize, clamp, validate. -/
def stageRegex (s : String) (m : ModelSchema) : Except PyErr JValue :=
  match validate_score_range (normalize_json_fields (.jObj (extract_json_with_regex s m))) with
  | .error e => .error e
  | .ok d2 => modelValidate m d2

/-- Stage 4: regex extraction, default fill, then normalize, clamp,
validate; any failure becomes the terminal
`ValueError("Cannot parse or repair JSON: ...")`. -/
def stageDefaults (s : String) (m : ModelSchema) : Except PyErr JValue :=
  let filled := fill_missing_fields (extract_json_with_regex s m) m
  let res : Except PyErr JValue :=
    match validate_score_range (normalize_json_fields (.jObj filled)) with
    | .error e => .error e
    | .ok d2 => modelValidate m d2
  match res with
  | .ok v => .ok v
  | .error _ => .error .valueErr

/-- `validate_and_repair_json` from `src/utils/validator.py`: the
four-stage cascade.  Stage 1 and 2 failures continue to the next stage
only when the exception is a `JSONDecodeError` or `ValidationError`
(anything else propagates); stage 3 continues only on
`ValidationError`; stage 4 turns every failure into `ValueError`. -/
def validate_and_repair_json (s : String) (m : ModelSchema) : Except PyErr JValue :=
  match stageParse s m with
  | .ok v => .ok v
  | .error e1 =>
    if catchable e1 then
      match stageParse (clean_json_string s) m with
      | .ok v => .ok v
      | .error e2 =>
        if catchable e2 then
          match stageRegex s m with
          | .ok v => .ok v
          | .error e3 =>
            if e3 = .validationErr then stageDefaults s m else .error e3
        else .error e2
    else .error e1

/-! ### `CVScoring` weighted score and match rate
(`src/models/evaluate.py`) -/

/-- Python `round(x, nd)` on an exact rational: round half to even at
`nd` decimal places. -/
def pyRoundN (q : Rat) (nd : Nat) : Rat :=
  ((pyRound (q * (10 : Rat) ^ nd) : Rat)) / (10 : Rat) ^ nd

/-- A validated `CVScoring` record: four integer scores. -/
structure CVScoring where
  technical_skills : Int
  experience_level : Int
  achievements : Int
  cultural_fit : Int
deriving Repr, DecidableEq

/-- `CVScoring.weighted_score`: the rubric-weighted average
(40% / 25% / 20% / 15%), rounded to two decimals. -/
def CVScoring.weighted_score (c : CVScoring) : Rat :=
  pyRoundN
    ((c.technical_skills : Rat) * (0.40 : Rat)
      + (c.experience_level : Rat) * (0.25 : Rat)
      + (c.achievements : Rat) * (0.20 : Rat)
      + (c.cultural_fit : Rat) * (0.15 : Rat)) 2

/-- `CVScoring.match_rate`: the weighted score scaled to 0–1
(`* 0.2`), rounded to three decimals. -/
def CVScoring.match_rate (c : CVScoring) : Rat :=
  pyRoundN (c.weighted_score * (0.2 : Rat)) 3

/-! ### `QdrantService` retrieval (`src/services/qdrant_service.py`)
and the per-document loop of `_evaluate_cv`
(`src/services/evaluation_pipeline_service.py`).

The Qdrant client is an external collaborator: it is a parameter
`client : SearchClient` mapping (collection, query embedding, source
filter, top_k, score_threshold) to a hit list or an exception. -/

/-- One raw search hit: a payload and a relevance score. -/
structure Hit where
  payload : List (String × JValue)
  score : Rat

/-- A retrieved context passage (`RAGContext` in `src/models/qdrant.py`). -/
structure RAGContext where
  content : String
  source : String
  score : Rat
  metadata : List (String × JValue)

/-- The external vector-store client interface. -/
def SearchClient : Type :=
  String → List Rat → Option String → Nat → Rat → Except PyErr (List Hit)

/-- String payload field with a default (`hit.payload.get(k, dflt)`;
the payload fields in scope are strings). -/
def payloadGetStr (p : List (String × JValue)) (k : String) (dflt : String) : String :=
  match lookupFirst k p with
  | some (.jStr s) => s
  | _ => dflt

/-- Relevant settings from `src/config.py`. -/
def qdrant_cv_collection : String := "cv_evaluation_context"

def qdrant_project_collection : String := "project_evaluation_context"

def rag_top_k : Nat := 5

def rag_score_threshold : Rat := 0

def redis_job_ttl : Nat := 86400

/-- The `RAGContext` built from one hit in `search_with_filter`. -/
def ctxOfHit (h : Hit) : RAGContext :=
  { content := payloadGetStr h.payload "content" ""
    source := payloadGetStr h.payload "source" "unknown"
    score := h.score
    metadata := h.payload }

/-- `QdrantService.search_with_filter`: issue one search (building the
source filter when given) and convert each hit to a `RAGContext`. -/
def search_with_filter (client : SearchClient) (collection : String)
    (emb : List Rat) (sourceFilter : Option String) (topK : Nat) (thr : Rat) :
    Except PyErr (List RAGContext) :=
  (client collection emb sourceFilter topK thr).map (List.map ctxOfHit)

/-- The per-collection source tags of `get_evaluation_context`. -/
def sourcesFor (collection : String) : List String :=
  if collection = qdrant_cv_collection then [ "job_description", "cv_rubric"]
  else [ "case_study_brief", "project_rubric"]

/-- `QdrantService.get_evaluation_context`: one unfiltered search when
`separate_sources` is false; otherwise one filtered search per source
tag, in order, collecting `result[source] = contexts`.  The loop has no
exception handling: a failing search propagates immediately. -/
def get_evaluation_context (client : SearchClient) (collection : String)
    (emb : List Rat) (separate_sources : Bool) :
    Except PyErr (List (String × List RAGContext)) :=
  if !separate_sources then
    (search_with_filter client collection emb none rag_top_k rag_score_threshold).map
      (fun ctxs => [("all", ctxs)])
  else
    (sourcesFor collection).foldlM
      (fun acc src =>
        (search_with_filter client collection emb (some src) 3 rag_score_threshold).map
          (fun ctxs => acc ++ [(src, ctxs)]))
      []

/-- An optional reference document row as used by the `_evaluate_cv`
retrieval loop (`doc.category.collection_name`). -/
structure OptionalDoc where
  collection_name : String
  title : String

/-- The JD-retrieval loop of `EvaluationPipeline._evaluate_cv`
(lines 113–126): one unfiltered search per optional document, results
concatenated; again no exception handling inside the loop. -/
def jd_context_loop (client : SearchClient) (emb : List Rat)
    (docs : List OptionalDoc) (thr : Rat) : Except PyErr (List RAGContext) :=
  docs.foldlM
    (fun acc doc =>
      (search_with_filter client doc.collection_name emb none 3 thr).map
        (fun ctxs => acc ++ ctxs))
    []

/-! ### The Redis job store (`src/databases/redis.py`).

The store is an explicit association list from keys to entries; each
entry carries the remaining time-to-live set by the last `setex` and the
JSON-decoded record (the `json.dumps`/`json.loads` round trip through
the wire is the identity in the model). -/

/-- Job lifecycle states (`src/models/job.py`). -/
inductive JobStatus where
  | queued
  | processing
  | completed
  | failed
  | retrying
deriving Repr, DecidableEq

/-- The wire value of a status (`JobStatus.value`). -/
def JobStatus.value : JobStatus → String
  | .queued => "queued"
  | .processing => "processing"
  | .completed => "completed"
  | .failed => "failed"
  | .retrying => "retrying"

/-- One stored record with its remaining TTL. -/
structure StoredEntry where
  ttl : Nat
  payload : List (String × JValue)

/-- The Redis key space. -/
def Store : Type := List (String × StoredEntry)

/-- First-occurrence lookup in the store (`client.get(key)`). -/
def storeLookup (k : String) : Store → Option StoredEntry
  | [] => none
  | (k2, e) :: rest => if k2 = k then some e else storeLookup k rest

/-- `client.setex(key, ttl, value)`: write the value and reset the key's
expiry to `ttl`. -/
def setex (st : Store) (k : String) (ttl : Nat)
    (payload : List (String × JValue)) : Store :=
  match st with
  | [] => [(k, ⟨ttl, payload⟩)]
  | (k2, e) :: rest =>
    if k2 = k then (k2, ⟨ttl, payload⟩) :: rest else (k2, e) :: setex rest k ttl payload

/-- `create_job_record`: build the initial job payload and `setex` it
under `job:{job_id}` with the configured TTL. -/
def create_job_record (st : Store) (job_id cv_id : String)
    (cv_context : List Int) (report_id : String) (project_context : List Int)
    (job_title : String) (status : JobStatus) (created_at : String) : Store :=
  let payload : List (String × JValue) :=
    [ ("id", .jStr job_id),
      ("cv_id", .jStr cv_id),
      ("cv_context", .jArr (cv_context.map .jInt)),
      ("report_id", .jStr report_id),
      ("project_context", .jArr (project_context.map .jInt)),
      ("job_title", .jStr job_title),
      ("status", .jStr status.value),
      ("created_at", .jStr (created_at ++ "Z")),
      ("updated_at", .jStr (created_at ++ "Z")),
      ("retry_count", .jInt 0)]
  setex st ("job:" ++ job_id) redis_job_ttl payload

/-- Current `retry_count` of a payload (`job_data.get("retry_count", 0)`;
stored counts are integers). -/
def retryCountOf (p : List (String × JValue)) : Int :=
  match lookupFirst "retry_count" p with
  | some (.jInt n) => n
  | _ => 0

/-- `update_job_status`: read the record (raising `ValueError` when the
id is unknown — nothing is written in that case), merge the update, and
`setex` the result with the full configured TTL.  Python truthiness:
an empty `result` dict and an empty `error` string are skipped. -/
def update_job_status (st : Store) (now : String) (job_id : String)
    (status : JobStatus) (result : Option (List (String × JValue)))
    (err : Option String) : Except PyErr Store :=
  match storeLookup ("job:" ++ job_id) st with
  | none => .error .valueErr
  | some entry =>
    let d0 := dictSet entry.payload "status" (.jStr status.value)
    let d1 := dictSet d0 "updated_at" (.jStr (now ++ "Z"))
    let d2 := match result with
      | some [] => d1
      | some r => r.foldl (fun acc p => dictSet acc p.1 p.2) d1
      | none => d1
    let d3 := match err with
      | some e => if e = "" then d2 else dictSet d2 "error" (.jStr e)
      | none => d2
    let d4 := if status = .completed then dictSet d3 "completed_at" (.jStr (now ++ "Z")) else d3
    let d5 := if status = .retrying then dictSet d4 "retry_count" (.jInt (retryCountOf d4 + 1)) else d4
    .ok (setex st ("job:" ++ job_id) redis_job_ttl d5)

/-! ### The task runner (`src/task.py`): retry/backoff state machine -/

/-- The result of one pipeline attempt, abstracting
`pipeline.evaluate`: success with a result payload, the Celery
`SoftTimeLimitExceeded` signal, or any other exception. -/
inductive Outcome where
  | success (result : List (String × JValue))
  | softTimeout
  | failure (msg : String)

/-- What the task function does after its status updates: return,
re-raise (terminal), or schedule a retry with a countdown in seconds. -/
inductive TaskAction where
  | finished
  | raised
  | retryScheduled (countdown : Nat)
deriving Repr, DecidableEq

/-- `max_retries=3` from the task decorator. -/
def task_max_retries : Nat := 3

/-- One execution of `run_evaluation_pipeline` with `retries` prior
retries (`self.request.retries`): the sequence of job-store status
updates it performs (status, error string) and the resulting action.
On success: PROCESSING then COMPLETED.  On `SoftTimeLimitExceeded`:
PROCESSING then FAILED, re-raised — never RETRYING.  On any other
failure: PROCESSING then RETRYING with countdown `2 ** retries` while
retries remain, else FAILED recording the last error. -/
def runAttempt (retries : Nat) (o : Outcome) :
    List (JobStatus × Option String) × TaskAction :=
  match o with
  | .success _ => ([(.processing, none), (.completed, none)], .finished)
  | .softTimeout =>
    ([(.processing, none), (.failed, some "Evaluation timed out after 4 minutes")], .raised)
  | .failure e =>
    if retries < task_max_retries then
      ([(.processing, none),
        (.retrying, some ("Retry " ++ toString (retries + 1) ++ ": " ++ e))],
       .retryScheduled (2 ^ retries))
    else
      ([(.processing, none),
        (.failed, some ("Failed after " ++ toString task_max_retries ++ " retries: " ++ e))],
       .raised)

/-- A whole job run: attempts consume the outcome list while retries are
scheduled (Celery re-invokes the task with `retries + 1`); the trace is
the concatenation of all status updates. -/
def runJob (retries : Nat) : List Outcome → List (JobStatus × Option String)
  | [] => []
  | o :: rest =>
    let r := runAttempt retries o
    r.1 ++ (match r.2 with
      | .retryScheduled _ => runJob (retries + 1) rest
      | _ => [])

/-- Number of RETRYING transitions in a trace. -/
def countRetrying (tr : List (JobStatus × Option String)) : Nat :=
  (tr.filter (fun u => u.1 = .retrying)).length

/-- Numeric view of a value: the exact rational of an `int` or `float`. -/
def numVal (v : JValue) : Option Rat :=
  match v with
  | .jInt n => some (n : Rat)
  | .jFloat q => some q
  | _ => none

/-- The `clean → parse → normalize → clamp` composite of the spec's
idempotence property, over the source functions. -/
def repair_pipeline (s : String) : Except PyErr JValue :=
  match pyJsonLoads (clean_json_string s) with
  | .error e => .error e
  | .ok d => validate_score_range (normalize_json_fields d)

/-- One pair map of the record-level `normalize → clamp` composite. -/
def cnPair (p : String × JValue) : String × JValue :=
  clampPair (normPair p)

/-! ## Theorems -/

/-! ### Shared helper lemmas -/

theorem head?_dropWhile_false (p : Char → Bool) (l : List Char) :
    ∀ x ∈ (l.dropWhile p).head?, p x = false := by
  induction l with
  | nil => simp [List.dropWhile]
  | cons a rest ih =>
    by_cases h : p a
    · simpa [List.dropWhile, h] using ih
    · simp [List.dropWhile, h]

theorem dropWhile_eq_self_of_head (p : Char → Bool) (l : List Char)
    (h : ∀ x ∈ l.head?, p x = false) : l.dropWhile p = l := by
  cases l with
  | nil => rfl
  | cons a rest => simp [List.dropWhile, h a (by simp)]

theorem dropWhile_idem (p : Char → Bool) (l : List Char) :
    (l.dropWhile p).dropWhile p = l.dropWhile p :=
  dropWhile_eq_self_of_head p _ (head?_dropWhile_false p l)

theorem pyStrip_idem (s : String) : pyStrip (pyStrip s) = pyStrip s := by
  rcases s with ⟨l⟩
  have estep : ∀ m : List Char, pyStrip (String.mk m) =
      String.mk (((m.dropWhile pyIsSpace).reverse.dropWhile pyIsSpace).reverse) :=
    fun m => rfl
  rw [estep l, estep]
  apply congrArg String.mk
  have hBdrop :
      (((l.dropWhile pyIsSpace).reverse.dropWhile pyIsSpace).reverse).dropWhile pyIsSpace
        = ((l.dropWhile pyIsSpace).reverse.dropWhile pyIsSpace).reverse := by
    apply dropWhile_eq_self_of_head
    intro x hx
    rcases hBs : ((l.dropWhile pyIsSpace).reverse.dropWhile pyIsSpace).reverse with _ | ⟨b, Brest⟩
    · rw [hBs] at hx; simp at hx
    · have hpre : (b :: Brest) <+: l.dropWhile pyIsSpace := by
        have h1 : (l.dropWhile pyIsSpace).reverse.dropWhile pyIsSpace
            <:+ (l.dropWhile pyIsSpace).reverse := List.dropWhile_suffix pyIsSpace
        have h2 : ((l.dropWhile pyIsSpace).reverse.dropWhile pyIsSpace).reverse
            <+: (l.dropWhile pyIsSpace).reverse.reverse := List.reverse_prefix.mpr h1
        rw [List.reverse_reverse] at h2
        rw [← hBs]
        exact h2
      obtain ⟨t, ht⟩ := hpre
      have hhead : b ∈ (l.dropWhile pyIsSpace).head? := by
        rw [← ht]; simp
      have hb := head?_dropWhile_false pyIsSpace l b hhead
      have hxb : b = x := by rw [hBs] at hx; simpa using hx
      rw [← hxb]; exact hb
  rw [hBdrop]
  apply congrArg List.reverse
  rw [List.reverse_reverse]
  exact dropWhile_idem pyIsSpace (l.dropWhile pyIsSpace).reverse

theorem lookupFirst_map (g : String × JValue → String × JValue)
    (hg : ∀ p, (g p).1 = p.1) (k : String) (l : List (String × JValue)) :
    lookupFirst k (l.map g) = (lookupFirst k l).map (fun v => (g (k, v)).2) := by
  induction l with
  | nil => rfl
  | cons a rest ih =>
    rcases a with ⟨k2, v2⟩
    have h1 : (g (k2, v2)).1 = k2 := hg _
    simp only [List.map_cons, lookupFirst]
    rcases hgp : g (k2, v2) with ⟨gk, gv⟩
    rw [hgp] at h1
    have h1b : gk = k2 := h1
    subst h1b
    by_cases h : gk = k
    · subst h
      simp only [lookupFirst, if_pos rfl]
      simp [hgp]
    · simp only [lookupFirst, if_neg h]
      simpa [h] using ih

theorem lookupFirst_updateFirst_ne (k k2 : String) (f : JValue → JValue)
    (l : List (String × JValue)) (h : k ≠ k2) :
    lookupFirst k (updateFirst k2 f l) = lookupFirst k l := by
  induction l with
  | nil => rfl
  | cons a rest ih =>
    rcases a with ⟨ka, va⟩
    by_cases hk : ka = k2
    · subst hk
      simp only [updateFirst, if_pos rfl, lookupFirst]
      rw [if_neg (fun hc => h hc.symm), if_neg (fun hc => h hc.symm)]
    · simp only [updateFirst, if_neg hk, lookupFirst]
      by_cases hk2 : ka = k
      · simp [hk2]
      · simp [hk2, ih]

theorem lookupFirst_updateFirst_eq (k : String) (f : JValue → JValue)
    (l : List (String × JValue)) :
    lookupFirst k (updateFirst k f l) = (lookupFirst k l).map f := by
  induction l with
  | nil => rfl
  | cons a rest ih =>
    rcases a with ⟨ka, va⟩
    by_cases hk : ka = k
    · subst hk
      simp [updateFirst, lookupFirst]
    · simp [updateFirst, lookupFirst, hk, ih]

theorem normPair_fst (p : String × JValue) : (normPair p).1 = p.1 := by
  rcases p with ⟨k, v⟩
  unfold normPair
  split
  · rfl
  · cases v <;> (simp; try split) <;> rfl

theorem clampPair_fst (p : String × JValue) : (clampPair p).1 = p.1 := by
  rcases p with ⟨k, v⟩
  unfold clampPair
  split <;> rfl

theorem pyRound_abs_le (q : Rat) : |((pyRound q : Int) : Rat) - q| ≤ 1/2 := by
  have h1 : ((⌊q⌋ : Int) : Rat) ≤ q := Int.floor_le q
  have h2 : q < ((⌊q⌋ : Int) : Rat) + 1 := Int.lt_floor_add_one q
  unfold pyRound
  split_ifs with ha hb hc
  all_goals rw [abs_le]
  all_goals constructor
  all_goals push_cast
  all_goals linarith

theorem pyRound_ge_one (q : Rat) (h : 1 ≤ q) : 1 ≤ pyRound q := by
  have hf : (1 : Int) ≤ ⌊q⌋ := by
    rw [Int.le_floor]; exact_mod_cast h
  unfold pyRound
  split_ifs <;> omega

theorem pyRound_le_five (q : Rat) (h : q ≤ 5) : pyRound q ≤ 5 := by
  have h1 : ((⌊q⌋ : Int) : Rat) ≤ q := Int.floor_le q
  unfold pyRound
  split_ifs with ha hb hc
  · by_contra hcon
    rw [not_le] at hcon
    have hc2 : (5 : Rat) < ((⌊q⌋ : Int) : Rat) := by exact_mod_cast hcon
    linarith
  · by_contra hcon
    rw [not_le] at hcon
    have hf5 : (5 : Int) ≤ ⌊q⌋ := by omega
    have hc2 : (5 : Rat) ≤ ((⌊q⌋ : Int) : Rat) := by exact_mod_cast hf5
    linarith
  · by_contra hcon
    rw [not_le] at hcon
    have hc2 : (5 : Rat) < ((⌊q⌋ : Int) : Rat) := by exact_mod_cast hcon
    linarith
  · by_contra hcon
    rw [not_le] at hcon
    have hf5 : (5 : Int) ≤ ⌊q⌋ := by omega
    have hc2 : (5 : Rat) ≤ ((⌊q⌋ : Int) : Rat) := by exact_mod_cast hf5
    linarith

/-! ### C1 — score fields after normalize + clamp -/

/-- C1: for every record and every known score field whose value is a
number or a numeric-looking string (one `coerce_num` turns into a
number, with coerced value `c`), after `normalize_json_fields` followed
by `validate_score_range` the field holds an integer in [1,5]: coerced
values below 1 become 1, above 5 become 5, and in-range values are
rounded to a nearest integer (within 1/2; Python `round` breaks ties to
even).  `validate_score_range (normalize_json_fields (.jObj l))`
computes `.ok (.jObj (clampObj (normObj l)))` by definition. -/
theorem score_field_clamped_to_unit_range
    (l : List (String × JValue)) (f : String) (v : JValue) (c : Rat)
    (hf : f ∈ scoreFields)
    (hv : lookupFirst f l = some v)
    (hc : numVal (coerceNum v) = some c) :
    ∃ n : Int, lookupFirst f (clampObj (normObj l)) = some (.jInt n) ∧
      1 ≤ n ∧ n ≤ 5 ∧
      (c < 1 → n = 1) ∧ (5 < c → n = 5) ∧
      (1 ≤ c → c ≤ 5 → |(n : Rat) - c| ≤ 1/2) := by
  have hfr : f ≠ "reasoning" := by rintro rfl; revert hf; decide
  have h1 : lookupFirst f (normObj l) = some (coerceNum v) := by
    unfold normObj
    rw [lookupFirst_updateFirst_ne _ _ _ _ hfr, lookupFirst_map normPair normPair_fst, hv]
    simp [normPair, hf]
  have h2 : lookupFirst f (clampObj (normObj l)) = some (clampVal (coerceNum v)) := by
    unfold clampObj
    rw [lookupFirst_map clampPair clampPair_fst, h1]
    simp [clampPair, hf]
  rcases hw : coerceNum v with _ | b | n | q | s | xs | kvs | _ <;> rw [hw] at hc h2
  case jInt =>
    have hcn : c = (n : Rat) := by simpa [numVal] using hc.symm
    subst hcn
    by_cases hlt : n < 1
    · refine ⟨1, by rw [h2]; simp [clampVal, hlt], le_refl 1, by norm_num, fun _ => rfl, ?_, ?_⟩
      · intro h5
        exfalso
        have : (5 : Int) < n := by exact_mod_cast h5
        omega
      · intro hge _
        exfalso
        have : (1 : Int) ≤ n := by exact_mod_cast hge
        omega
    · by_cases hgt : n > 5
      · refine ⟨5, by rw [h2]; simp [clampVal, hlt, hgt], by norm_num, le_refl 5, ?_, fun _ => rfl, ?_⟩
        · intro h5
          exfalso
          have : (n : Int) < 1 := by exact_mod_cast h5
          omega
        · intro _ hle
          exfalso
          have : (n : Int) ≤ 5 := by exact_mod_cast hle
          omega
      · refine ⟨n, by rw [h2]; simp [clampVal, hlt, hgt], by omega, by omega, ?_, ?_, ?_⟩
        · intro h5
          exfalso
          have : (n : Int) < 1 := by exact_mod_cast h5
          omega
        · intro h5
          exfalso
          have : (5 : Int) < n := by exact_mod_cast h5
          omega
        · intro _ _
          simp
  case jFloat =>
    have hcn : c = q := by simpa [numVal] using hc.symm
    subst hcn
    by_cases hlt : c < 1
    · refine ⟨1, by rw [h2]; simp [clampVal, hlt], le_refl 1, by norm_num, fun _ => rfl, ?_, ?_⟩
      · intro h5; exfalso; linarith
      · intro hge _; exfalso; linarith
    · by_cases hgt : c > 5
      · refine ⟨5, by rw [h2]; simp [clampVal, hlt, hgt], by norm_num, le_refl 5, ?_, fun _ => rfl, ?_⟩
        · intro h5; exfalso; linarith
        · intro _ hle; exfalso; linarith
      · refine ⟨pyRound c, by rw [h2]; simp [clampVal, hlt, hgt], ?_, ?_, ?_, ?_, ?_⟩
        · exact pyRound_ge_one c (not_lt.mp hlt)
        · exact pyRound_le_five c (not_lt.mp hgt)
        · intro h5; exfalso; exact hlt h5
        · intro h5; exfalso; exact hgt h5
        · intro _ _; exact pyRound_abs_le c
  all_goals simp [numVal] at hc

/-- C1, witness: the out-of-range numeric string score "6" ends as the
integer 5. -/
theorem score_field_clamped_to_unit_range_witness :
    ∃ n : Int,
      lookupFirst "technical_skills"
        (clampObj (normObj [("technical_skills", .jStr "6")])) = some (.jInt n) ∧
      1 ≤ n ∧ n ≤ 5 ∧
      (((6 : Int) : Rat) < 1 → n = 1) ∧ (5 < ((6 : Int) : Rat) → n = 5) ∧
      (1 ≤ ((6 : Int) : Rat) → ((6 : Int) : Rat) ≤ 5 →
        |(n : Rat) - ((6 : Int) : Rat)| ≤ 1/2) :=
  score_field_clamped_to_unit_range [("technical_skills", .jStr "6")]
    "technical_skills" (.jStr "6") ((6 : Int) : Rat) (by decide) rfl rfl

/-! ### C2 — the repair cascade's stage order and terminal error -/

/-- C2: the claim fails on the code.  On the input `"[1, 2]"` — valid
JSON whose value is a list — stage 1's model construction
(`expected_model(**data)` on a non-mapping) raises `TypeError`, which the
stage-1 `except` clauses (`JSONDecodeError`, `ValidationError`) do not
catch: the cascade stops inside stage 1 and propagates `TypeError`
instead of attempting stages 2–4 and raising the terminal `ValueError`. -/
theorem repair_cascade_typeerror_escapes_stage_one :
    validate_and_repair_json "[1, 2]" CVScoringSchema = .error .typeErr ∧
    catchable .typeErr = false ∧ (PyErr.typeErr ≠ PyErr.valueErr) :=
  ⟨rfl, rfl, by decide⟩

/-! ### C3 — the default-fill tier -/

/-- C3: the claim fails on the code.  For required pydantic fields
`FieldInfo.default` is the `PydanticUndefined` sentinel, which is not
`None`, so `get_default_value`'s first guard returns the sentinel itself
and the name-based defaults (3 / placeholder / 0.6) are never reached:
on the text `"hello"` every missing `CVScoring` field is "filled" with
`PydanticUndefined`, validation fails, and the cascade raises
`ValueError` instead of producing a defaulted record. -/
theorem default_fill_returns_pydantic_undefined :
    fill_missing_fields (extract_json_with_regex "hello" CVScoringSchema) CVScoringSchema =
      [("technical_skills", .jUndef), ("experience_level", .jUndef),
       ("achievements", .jUndef), ("cultural_fit", .jUndef)] ∧
    validate_and_repair_json "hello" CVScoringSchema = .error .valueErr :=
  ⟨rfl, rfl⟩

/-! ### C7 — updating an unknown job id -/

/-- C7: `update_job_status` on a job id absent from the store raises
`ValueError` (`"Job {id} not found"`) before any write: no store state
is produced and no record is created. -/
theorem update_job_status_unknown_id_fails
    (st : Store) (now job_id : String) (status : JobStatus)
    (result : Option (List (String × JValue))) (err : Option String)
    (h : storeLookup ("job:" ++ job_id) st = none) :
    update_job_status st now job_id status result err = .error .valueErr := by
  unfold update_job_status
  rw [h]

/-- C7, witness: updating any id in the empty store fails. -/
theorem update_job_status_unknown_id_fails_witness :
    update_job_status [] "2025-01-01T00:00:00" "j1" .processing none none
      = .error .valueErr :=
  update_job_status_unknown_id_fails [] "2025-01-01T00:00:00" "j1" .processing none none rfl

/-! ### C10 — every write resets the TTL -/

theorem storeLookup_setex_self (k : String) (ttl : Nat)
    (p : List (String × JValue)) :
    ∀ st : Store, storeLookup k (setex st k ttl p) = some ⟨ttl, p⟩ := by
  intro st
  induction st with
  | nil => simp [setex, storeLookup]
  | cons a rest ih =>
    rcases a with ⟨ka, ea⟩
    by_cases hk : ka = k
    · subst hk; simp [setex, storeLookup]
    · simp [setex, storeLookup, hk, ih]

/-- C10: both store writes go through `setex` with the full configured
TTL (`settings.redis_job_ttl`): after `create_job_record`, and after any
successful `update_job_status` (any status), the stored entry's
remaining lifetime is the full TTL — expiry is measured from the last
write. -/
theorem job_store_writes_reset_ttl :
    (∀ (st : Store) (job_id cv_id : String) (cv_context : List Int)
        (report_id : String) (project_context : List Int) (job_title : String)
        (status : JobStatus) (created_at : String),
      ∃ p, storeLookup ("job:" ++ job_id)
          (create_job_record st job_id cv_id cv_context report_id project_context
            job_title status created_at) = some ⟨redis_job_ttl, p⟩) ∧
    (∀ (st : Store) (now job_id : String) (status : JobStatus)
        (result : Option (List (String × JValue))) (err : Option String)
        (st2 : Store),
      update_job_status st now job_id status result err = .ok st2 →
      ∃ p, storeLookup ("job:" ++ job_id) st2 = some ⟨redis_job_ttl, p⟩) := by
  constructor
  · intro st job_id cv_id cv_context report_id project_context job_title status created_at
    exact ⟨_, storeLookup_setex_self _ _ _ st⟩
  · intro st now job_id status result err st2 h
    unfold update_job_status at h
    rcases hl : storeLookup ("job:" ++ job_id) st with _ | entry
    · rw [hl] at h; exact absurd h (by simp)
    · rw [hl] at h
      simp only [Except.ok.injEq] at h
      subst h
      exact ⟨_, storeLookup_setex_self _ _ _ st⟩

/-- C10, witness: create a job, then update it; both lookups show the
full TTL. -/
theorem job_store_writes_reset_ttl_witness :
    (∃ p, storeLookup "job:j"
        (create_job_record [] "j" "cv1" [] "r1" [] "backend" .queued
          "2025-01-01T00:00:00") = some ⟨redis_job_ttl, p⟩) ∧
    (∃ st2, update_job_status
        (create_job_record [] "j" "cv1" [] "r1" [] "backend" .queued
          "2025-01-01T00:00:00")
        "2025-01-01T00:05:00" "j" .processing none none = .ok st2 ∧
      ∃ p, storeLookup "job:j" st2 = some ⟨redis_job_ttl, p⟩) := by
  constructor
  · simpa using job_store_writes_reset_ttl.1 [] "j" "cv1" [] "r1" [] "backend"
      .queued "2025-01-01T00:00:00"
  · refine ⟨_, rfl, ?_⟩
    simpa using job_store_writes_reset_ttl.2
      (create_job_record [] "j" "cv1" [] "r1" [] "backend" .queued
        "2025-01-01T00:00:00")
      "2025-01-01T00:05:00" "j" .processing none none _ rfl

/-! ### C6 — the task runner's failure handling -/

theorem countRetrying_append (a b : List (JobStatus × Option String)) :
    countRetrying (a ++ b) = countRetrying a + countRetrying b := by
  simp [countRetrying, List.filter_append]

theorem countRetrying_runJob_le (os : List Outcome) :
    ∀ retries : Nat, countRetrying (runJob retries os) ≤ task_max_retries - retries := by
  induction os with
  | nil => intro retries; simp [runJob, countRetrying]
  | cons o rest ih =>
    intro retries
    rcases o with r | _ | e
    · simp [runJob, runAttempt, countRetrying]
    · simp [runJob, runAttempt, countRetrying]
    · by_cases hr : retries < task_max_retries
      · have h1 := ih (retries + 1)
        simp only [runJob, runAttempt, if_pos hr, countRetrying_append]
        have h2 : countRetrying
            [(JobStatus.processing, none),
             (JobStatus.retrying, some ("Retry " ++ toString (retries + 1) ++ ": " ++ e))] = 1 := by
          simp [countRetrying]
        rw [h2]
        unfold task_max_retries at hr h1 ⊢
        omega
      · simp only [runJob, runAttempt, if_neg hr]
        simp [countRetrying]

/-- C6: the task runner's failure handling.  (i) A timeout
(`SoftTimeLimitExceeded`) updates PROCESSING then FAILED, re-raises, and
performs no RETRYING transition — timeouts are never retried.  (ii) Any
other failure with retries remaining transitions through RETRYING and
schedules a retry with backoff `2 ** retries` seconds.  (iii) With
retries exhausted it sets FAILED recording the last error.  (iv) Along
any whole run, at most 3 RETRYING transitions occur. -/
theorem task_runner_retry_policy :
    (∀ retries : Nat,
      runAttempt retries .softTimeout =
        ([(.processing, none),
          (.failed, some "Evaluation timed out after 4 minutes")], .raised) ∧
      countRetrying (runAttempt retries .softTimeout).1 = 0) ∧
    (∀ (retries : Nat) (e : String), retries < task_max_retries →
      runAttempt retries (.failure e) =
        ([(.processing, none),
          (.retrying, some ("Retry " ++ toString (retries + 1) ++ ": " ++ e))],
         .retryScheduled (2 ^ retries))) ∧
    (∀ (retries : Nat) (e : String), ¬ retries < task_max_retries →
      runAttempt retries (.failure e) =
        ([(.processing, none),
          (.failed, some ("Failed after " ++ toString task_max_retries ++ " retries: " ++ e))],
         .raised)) ∧
    (∀ os : List Outcome, countRetrying (runJob 0 os) ≤ 3) := by
  refine ⟨?_, ?_, ?_, ?_⟩
  · intro retries
    exact ⟨rfl, rfl⟩
  · intro retries e h
    simp [runAttempt, h]
  · intro retries e h
    simp [runAttempt, h]
  · intro os
    simpa using countRetrying_runJob_le os 0

/-- C6, witness: a failure at the second attempt (`retries = 1`)
transitions through RETRYING with a 2-second backoff; a timeout goes
straight to FAILED; the triple-failure run shows 3 retries. -/
theorem task_runner_retry_policy_witness :
    runAttempt 1 (.failure "boom") =
      ([(.processing, none), (.retrying, some "Retry 2: boom")],
       .retryScheduled 2) ∧
    runAttempt 3 (.failure "boom") =
      ([(.processing, none), (.failed, some "Failed after 3 retries: boom")],
       .raised) ∧
    runAttempt 0 .softTimeout =
      ([(.processing, none),
        (.failed, some "Evaluation timed out after 4 minutes")], .raised) :=
  ⟨by simpa using task_runner_retry_policy.2.1 1 "boom" (by decide),
   by simpa using task_runner_retry_policy.2.2.1 3 "boom" (by decide),
   (task_runner_retry_policy.1 0).1⟩

/-! ### C4 — per-source retrieval is *not* isolated -/

/-- C4 counterexample: a client whose `job_description` search raises
makes `get_evaluation_context` itself raise — no mapping (and no
`cv_rubric` key) is returned, so one source's failure is not isolated
from its sibling. -/
theorem gec_failure_aborts_siblings :
    get_evaluation_context
      (fun _ _ src _ _ =>
        if src = some "job_description" then .error .typeErr else .ok [])
      qdrant_cv_collection [] true = .error .typeErr := rfl

/-- C4 amended: the per-source loop of `get_evaluation_context` has no
exception handling — (i) when every per-source search succeeds, the
returned mapping has exactly the requested source tags as keys, in
order; (ii) when the first source's search raises, the exception
propagates and no mapping is returned; likewise (iii) for the
per-document loop of `_evaluate_cv`, a raising search aborts the loop. -/
theorem exc_bind_ok {a b : Type} (x : a) (f : a → Except PyErr b) :
    (Except.ok x >>= f) = f x := rfl

theorem exc_bind_error {a b : Type} (e : PyErr) (f : a → Except PyErr b) :
    ((Except.error e : Except PyErr a) >>= f) = .error e := rfl

theorem gec_foldl_two_ok (client : SearchClient) (coll : String) (emb : List Rat)
    (s1 s2 : String) (hits1 hits2 : List Hit)
    (h1 : client coll emb (some s1) 3 rag_score_threshold = .ok hits1)
    (h2 : client coll emb (some s2) 3 rag_score_threshold = .ok hits2) :
    [s1, s2].foldlM (fun acc src =>
      (search_with_filter client coll emb (some src) 3 rag_score_threshold).map
        (fun ctxs => acc ++ [(src, ctxs)])) ([] : List (String × List RAGContext))
      = .ok [(s1, hits1.map ctxOfHit), (s2, hits2.map ctxOfHit)] := by
  simp [List.foldlM, search_with_filter, h1, h2, Except.map, exc_bind_ok, exc_bind_error]

theorem gec_foldl_first_error (client : SearchClient) (coll : String)
    (emb : List Rat) (s1 s2 : String) (e : PyErr)
    (h1 : client coll emb (some s1) 3 rag_score_threshold = .error e) :
    [s1, s2].foldlM (fun acc src =>
      (search_with_filter client coll emb (some src) 3 rag_score_threshold).map
        (fun ctxs => acc ++ [(src, ctxs)])) ([] : List (String × List RAGContext))
      = .error e := by
  simp [List.foldlM, search_with_filter, h1, Except.map, exc_bind_ok, exc_bind_error]

/-- C4 amended: the per-source loop of `get_evaluation_context` has no
exception handling — (i) when every per-source search succeeds, the
returned mapping has exactly the requested source tags as keys, in
order; (ii) when the first source's search raises, the exception
propagates and no mapping is returned; likewise (iii) for the
per-document loop of `_evaluate_cv`, a raising search aborts the loop. -/
theorem gec_keys_require_all_searches_ok :
    (∀ (client : SearchClient) (coll : String) (emb : List Rat),
      (∀ src ∈ sourcesFor coll,
        ∃ hits, client coll emb (some src) 3 rag_score_threshold = .ok hits) →
      ∃ m, get_evaluation_context client coll emb true = .ok m ∧
        m.map Prod.fst = sourcesFor coll) ∧
    (∀ (client : SearchClient) (emb : List Rat) (e : PyErr),
      client qdrant_cv_collection emb (some "job_description") 3 rag_score_threshold
        = .error e →
      get_evaluation_context client qdrant_cv_collection emb true = .error e) ∧
    (∀ (client : SearchClient) (emb : List Rat) (doc : OptionalDoc)
        (docs : List OptionalDoc) (thr : Rat) (e : PyErr),
      client doc.collection_name emb none 3 thr = .error e →
      jd_context_loop client emb (doc :: docs) thr = .error e) := by
  have hdef : ∀ (client : SearchClient) (coll : String) (emb : List Rat),
      get_evaluation_context client coll emb true = (sourcesFor coll).foldlM
        (fun acc src =>
          (search_with_filter client coll emb (some src) 3 rag_score_threshold).map
            (fun ctxs => acc ++ [(src, ctxs)])) [] := fun _ _ _ => rfl
  refine ⟨?_, ?_, ?_⟩
  · intro client coll emb h
    by_cases hcol : coll = qdrant_cv_collection
    · subst hcol
      have hsrc : sourcesFor qdrant_cv_collection = [ "job_description", "cv_rubric"] := rfl
      obtain ⟨hits1, h1⟩ := h "job_description" (by rw [hsrc]; simp)
      obtain ⟨hits2, h2⟩ := h "cv_rubric" (by rw [hsrc]; simp)
      refine ⟨[("job_description", hits1.map ctxOfHit), ("cv_rubric", hits2.map ctxOfHit)], ?_, by rw [hsrc]; simp⟩
      rw [hdef, hsrc]
      exact gec_foldl_two_ok client _ emb _ _ hits1 hits2 h1 h2
    · have hsrc : sourcesFor coll = [ "case_study_brief", "project_rubric"] := by
        simp [sourcesFor, hcol]
      obtain ⟨hits1, h1⟩ := h "case_study_brief" (by rw [hsrc]; simp)
      obtain ⟨hits2, h2⟩ := h "project_rubric" (by rw [hsrc]; simp)
      refine ⟨[("case_study_brief", hits1.map ctxOfHit), ("project_rubric", hits2.map ctxOfHit)], ?_, by rw [hsrc]; simp⟩
      rw [hdef, hsrc]
      exact gec_foldl_two_ok client _ emb _ _ hits1 hits2 h1 h2
  · intro client emb e h
    have hsrc : sourcesFor qdrant_cv_collection = [ "job_description", "cv_rubric"] := rfl
    rw [hdef, hsrc]
    exact gec_foldl_first_error client _ emb _ _ e h
  · intro client emb doc docs thr e h
    have hstep : search_with_filter client doc.collection_name emb none 3 thr
        = .error e := by
      simp [search_with_filter, h, Except.map]
    cases docs with
    | nil => simp [jd_context_loop, List.foldlM, hstep, Except.map, exc_bind_error]
    | cons d2 rest => simp [jd_context_loop, List.foldlM, hstep, Except.map, exc_bind_error]

/-- C4 amended, witness: with a client that always succeeds with no
hits, the mapping carries both CV source tags. -/
theorem gec_keys_require_all_searches_ok_witness :
    ∃ m, get_evaluation_context (fun _ _ _ _ _ => .ok [])
        qdrant_cv_collection [] true = .ok m ∧
      m.map Prod.fst = sourcesFor qdrant_cv_collection :=
  gec_keys_require_all_searches_ok.1 (fun _ _ _ _ _ => .ok [])
    qdrant_cv_collection [] (fun _ _ => ⟨[], rfl⟩)

/-! ### C5 — the shape of a normalized `reasoning` field -/

/-- C5 counterexample: the non-empty, whitespace-only reasoning string
`"  "` is stripped by the main loop to `""` and then fails the
`rv.strip()` truthiness test, so after normalization `reasoning` is
still a bare string — not the `{summary: ...}` mapping the claim
requires for every non-empty string (and absent reasoning stays absent
rather than becoming `{}`). -/
theorem reasoning_whitespace_string_stays_bare :
    normalize_json_fields (.jObj [("reasoning", .jStr "  ")])
      = .jObj [("reasoning", .jStr "")] ∧
    ("  " : String) ≠ "" ∧
    normalize_json_fields (.jObj []) = .jObj [] :=
  ⟨rfl, by decide, rfl⟩

/-- C5 amended: after `normalize_json_fields`, a `reasoning` string with
non-whitespace content becomes `{summary: stripped}`; an empty or
whitespace-only string remains a bare (stripped) string; a list becomes
the summary-plus-details mapping; `None` becomes `{}`; an absent
`reasoning` stays absent. -/
theorem normalize_reasoning_shapes (l : List (String × JValue)) :
    (∀ s : String, lookupFirst "reasoning" l = some (.jStr s) →
      lookupFirst "reasoning" (normObj l) =
        (if pyStrip s = "" then some (.jStr (pyStrip s))
         else some (.jObj [("summary", .jStr (pyStrip s))]))) ∧
    (∀ xs : List JValue, lookupFirst "reasoning" l = some (.jArr xs) →
      lookupFirst "reasoning" (normObj l) =
        some (.jObj [("summary", .jStr (joinNonEmpty xs)),
                     ("details", .jObj (itemPairs xs))])) ∧
    (lookupFirst "reasoning" l = some .jNull →
      lookupFirst "reasoning" (normObj l) = some (.jObj [])) ∧
    (lookupFirst "reasoning" l = none →
      lookupFirst "reasoning" (normObj l) = none) := by
  have key : ∀ v : JValue, lookupFirst "reasoning" l = some v →
      lookupFirst "reasoning" (normObj l) =
        some (reasoningTrans ((normPair ("reasoning", v)).2)) := by
    intro v hv
    unfold normObj
    rw [lookupFirst_updateFirst_eq, lookupFirst_map normPair normPair_fst, hv]
    rfl
  have habsent : lookupFirst "reasoning" l = none →
      lookupFirst "reasoning" (normObj l) = none := by
    intro hv
    unfold normObj
    rw [lookupFirst_updateFirst_eq, lookupFirst_map normPair normPair_fst, hv]
    rfl
  have hnotscore : ¬ ("reasoning" ∈ scoreFields) := by decide
  refine ⟨?_, ?_, ?_, habsent⟩
  · intro s hv
    rw [key (.jStr s) hv]
    have e1 : (normPair ("reasoning", .jStr s)).2 = .jStr (pyStrip s) := by
      simp [normPair, hnotscore]
    rw [e1]
    by_cases hs : pyStrip s = ""
    · rw [if_pos hs]
      simp only [reasoningTrans, pyStrip_idem, hs]
      rfl
    · rw [if_neg hs]
      simp [reasoningTrans, pyStrip_idem, hs]
  · intro xs hv
    rw [key (.jArr xs) hv]
    have e1 : (normPair ("reasoning", .jArr xs)).2 = .jArr xs := by
      simp [normPair, hnotscore]
    rw [e1]
    rfl
  · intro hv
    rw [key .jNull hv]
    rfl

/-- C5 amended, witness: a reasoning list becomes the
summary-plus-details mapping. -/
theorem normalize_reasoning_shapes_witness :
    lookupFirst "reasoning" (normObj [("reasoning", .jArr [ .jStr " a ", .jInt 3])]) =
      some (.jObj [("summary", .jStr (joinNonEmpty [ .jStr " a ", .jInt 3])),
                   ("details", .jObj (itemPairs [ .jStr " a ", .jInt 3]))]) :=
  (normalize_reasoning_shapes [("reasoning", .jArr [ .jStr " a ", .jInt 3])]).2.1
    [ .jStr " a ", .jInt 3] rfl

/-! ### C8 — the worked scoring example -/

theorem cv4442_weighted_score :
    CVScoring.weighted_score ⟨4, 4, 4, 2⟩ = 37/10 := by
  have h1 : ((4 : Int) : Rat) * (0.40 : Rat) + ((4 : Int) : Rat) * (0.25 : Rat)
      + ((4 : Int) : Rat) * (0.20 : Rat) + ((2 : Int) : Rat) * (0.15 : Rat) = 37/10 := by
    norm_num
  unfold CVScoring.weighted_score
  rw [h1]
  unfold pyRoundN
  have h2 : (37 : Rat)/10 * (10 : Rat)^2 = 370 := by norm_num
  rw [h2]
  have h3 : pyRound 370 = 370 := by unfold pyRound; norm_num
  rw [h3]
  norm_num

theorem cv4442_match_rate :
    CVScoring.match_rate ⟨4, 4, 4, 2⟩ = 37/50 := by
  unfold CVScoring.match_rate
  rw [cv4442_weighted_score]
  unfold pyRoundN
  have h2 : (37 : Rat)/10 * (0.2 : Rat) * (10 : Rat)^3 = 740 := by norm_num
  rw [h2]
  have h3 : pyRound 740 = 740 := by unfold pyRound; norm_num
  rw [h3]
  norm_num

/-- C8 counterexample: on the model output (4, 4, 4, 2) with weights
40/25/20/15 the code computes weighted score 3.7 — not the 3.6 the spec
example states — and match rate 0.74, not ≈0.72. -/
theorem cv_example_scores_refute_spec_values :
    CVScoring.weighted_score ⟨4, 4, 4, 2⟩ ≠ 36/10 ∧
    CVScoring.match_rate ⟨4, 4, 4, 2⟩ ≠ 72/100 := by
  constructor
  · rw [cv4442_weighted_score]; norm_num
  · rw [cv4442_match_rate]; norm_num

/-- C8 amended: for the model output (4, 4, 4, 2) under weights
40%/25%/20%/15%, `weighted_score` is 3.7 (4·0.40 + 4·0.25 + 4·0.20 +
2·0.15) and the normalized `match_rate` is 0.74. -/
theorem cv_example_scores_correct_values :
    CVScoring.weighted_score ⟨4, 4, 4, 2⟩ = 37/10 ∧
    CVScoring.match_rate ⟨4, 4, 4, 2⟩ = 37/50 :=
  ⟨cv4442_weighted_score, cv4442_match_rate⟩

/-! ### C9 — idempotence of clean → parse → normalize → clamp -/

theorem coerceNum_idem (v : JValue) : coerceNum (coerceNum v) = coerceNum v := by
  cases v with
  | jStr s =>
    cases h : findNumToken (pyStrip s) with
    | none =>
      have e : coerceNum (.jStr s) = .jStr s := by
        simp only [coerceNum]; rw [h]
      rw [e, e]
    | some t =>
      have e : coerceNum (.jStr s) =
          (if t.contains '.' then .jFloat (parseDecToken t) else .jInt (parseIntToken t)) := by
        simp only [coerceNum]; rw [h]
      rw [e]
      by_cases hd : t.contains '.'
      · rw [if_pos hd]; rfl
      · rw [if_neg hd]; rfl
  | jNull => rfl
  | jBool b => rfl
  | jInt n => rfl
  | jFloat q => rfl
  | jArr xs => rfl
  | jObj kvs => rfl
  | jUndef => rfl

theorem clampVal_clampVal (w : JValue) : clampVal (clampVal w) = clampVal w := by
  cases w with
  | jInt n =>
    rcases lt_or_le n 1 with h1 | h1
    · have e : clampVal (.jInt n) = .jInt 1 := by simp [clampVal, h1]
      rw [e]; rfl
    · rcases lt_or_le 5 n with h2 | h2
      · have e : clampVal (.jInt n) = .jInt 5 := by
          simp [clampVal, not_lt.mpr h1, h2]
        rw [e]; rfl
      · have e : clampVal (.jInt n) = .jInt n := by
          simp [clampVal, not_lt.mpr h1, not_lt.mpr h2]
        rw [e, e]
  | jFloat q =>
    rcases lt_or_le q 1 with h1 | h1
    · have e : clampVal (.jFloat q) = .jInt 1 := by simp [clampVal, h1]
      rw [e]; rfl
    · rcases lt_or_le 5 q with h2 | h2
      · have e : clampVal (.jFloat q) = .jInt 5 := by
          simp [clampVal, not_lt.mpr h1, h2]
        rw [e]; rfl
      · have e : clampVal (.jFloat q) = .jInt (pyRound q) := by
          simp [clampVal, not_lt.mpr h1, not_lt.mpr h2]
        rw [e]
        have hge := pyRound_ge_one q h1
        have hle := pyRound_le_five q h2
        simp [clampVal, not_lt.mpr hge, not_lt.mpr hle]
  | jBool b => cases b <;> rfl
  | jNull => rfl
  | jStr s => rfl
  | jArr xs => rfl
  | jObj kvs => rfl
  | jUndef => rfl

theorem coerceNum_clampVal_coerceNum (v : JValue) :
    coerceNum (clampVal (coerceNum v)) = clampVal (coerceNum v) := by
  cases hw : coerceNum v with
  | jInt n =>
    simp only [clampVal]
    split_ifs <;> rfl
  | jFloat q =>
    simp only [clampVal]
    split_ifs <;> rfl
  | jBool b => cases b <;> rfl
  | jStr s =>
    have h := coerceNum_idem v
    rw [hw] at h
    have e : clampVal (.jStr s) = .jStr s := rfl
    rw [e]
    exact h
  | jNull => rfl
  | jArr xs => rfl
  | jObj kvs => rfl
  | jUndef => rfl

theorem cnVal_fix (v : JValue) :
    clampVal (coerceNum (clampVal (coerceNum v))) = clampVal (coerceNum v) := by
  rw [coerceNum_clampVal_coerceNum]
  exact clampVal_clampVal _

theorem normPair_idem_nonscore (k : String) (v : JValue) (hk : k ∉ scoreFields) :
    normPair (normPair (k, v)) = normPair (k, v) := by
  cases v with
  | jObj kvs =>
    by_cases hks : k = "scores"
    · subst hks
      have e : normPair ("scores", .jObj kvs) =
          ("scores", .jObj (kvs.map (fun q =>
            if q.1 ∈ scoreFields then (q.1, coerceNum q.2) else q))) := by
        simp [normPair, hk]
      rw [e]
      have e2 : normPair ("scores", .jObj (kvs.map (fun q =>
          if q.1 ∈ scoreFields then (q.1, coerceNum q.2) else q))) =
          ("scores", .jObj ((kvs.map (fun q =>
            if q.1 ∈ scoreFields then (q.1, coerceNum q.2) else q)).map (fun q =>
            if q.1 ∈ scoreFields then (q.1, coerceNum q.2) else q))) := by
        simp [normPair, hk]
      rw [e2, List.map_map]
      have e3 : ∀ q : String × JValue,
          ((fun q => if q.1 ∈ scoreFields then (q.1, coerceNum q.2) else q) ∘
            (fun q => if q.1 ∈ scoreFields then (q.1, coerceNum q.2) else q)) q
          = (fun q => if q.1 ∈ scoreFields then (q.1, coerceNum q.2) else q) q := by
        intro q
        by_cases hq : q.1 ∈ scoreFields
        · simp [hq, coerceNum_idem]
        · simp [hq]
      rw [List.map_congr_left (fun a _ => e3 a)]
    · have e : normPair (k, .jObj kvs) = (k, .jObj kvs) := by
        simp [normPair, hk, hks]
      rw [e, e]
  | jStr s =>
    have e : normPair (k, .jStr s) = (k, .jStr (pyStrip s)) := by
      simp [normPair, hk]
    rw [e]
    have e2 : normPair (k, .jStr (pyStrip s)) = (k, .jStr (pyStrip (pyStrip s))) := by
      simp [normPair, hk]
    rw [e2, pyStrip_idem]
  | jNull => have e : normPair (k, .jNull) = (k, .jNull) := by simp [normPair, hk]
             rw [e, e]
  | jBool b => have e : normPair (k, .jBool b) = (k, .jBool b) := by simp [normPair, hk]
               rw [e, e]
  | jInt n => have e : normPair (k, .jInt n) = (k, .jInt n) := by simp [normPair, hk]
              rw [e, e]
  | jFloat q => have e : normPair (k, .jFloat q) = (k, .jFloat q) := by simp [normPair, hk]
                rw [e, e]
  | jArr xs => have e : normPair (k, .jArr xs) = (k, .jArr xs) := by simp [normPair, hk]
               rw [e, e]
  | jUndef => have e : normPair (k, .jUndef) = (k, .jUndef) := by simp [normPair, hk]
              rw [e, e]

theorem clampPair_nonscore (k : String) (w : JValue) (hk : k ∉ scoreFields) :
    clampPair (k, w) = (k, w) := by
  simp [clampPair, hk]

theorem cnPair_idem (p : String × JValue) : cnPair (cnPair p) = cnPair p := by
  rcases p with ⟨k, v⟩
  by_cases hk : k ∈ scoreFields
  · have e1 : cnPair (k, v) = (k, clampVal (coerceNum v)) := by
      simp [cnPair, normPair, clampPair, hk]
    rw [e1]
    have e2 : cnPair (k, clampVal (coerceNum v)) =
        (k, clampVal (coerceNum (clampVal (coerceNum v)))) := by
      simp [cnPair, normPair, clampPair, hk]
    rw [e2, cnVal_fix]
  · have e1 : ∀ w, cnPair (k, w) = normPair (k, w) := by
      intro w
      rcases hnp : normPair (k, w) with ⟨k2, w2⟩
      have hk2 : k2 = k := by
        have := normPair_fst (k, w)
        rw [hnp] at this
        exact this
      subst hk2
      simp [cnPair, hnp, clampPair_nonscore _ _ hk]
    rcases hnp : normPair (k, v) with ⟨k2, w2⟩
    have hk2 : k2 = k := by
      have := normPair_fst (k, v)
      rw [hnp] at this
      exact this
    rw [e1 v, hnp, hk2, e1 w2]
    have h2 := normPair_idem_nonscore k v hk
    rw [hnp, hk2] at h2
    exact h2

theorem reasoning_not_score : "reasoning" ∉ scoreFields := by decide

theorem clampObj_updateFirst_reasoning (g : JValue → JValue)
    (m : List (String × JValue)) :
    clampObj (updateFirst "reasoning" g m)
      = updateFirst "reasoning" g (clampObj m) := by
  induction m with
  | nil => rfl
  | cons a rest ih =>
    rcases a with ⟨k, v⟩
    by_cases hk : k = "reasoning"
    · subst hk
      simp only [updateFirst, if_pos rfl, if_true, eq_self_iff_true, clampObj,
        List.map_cons, clampPair_nonscore _ _ reasoning_not_score]
    · rcases hcp : clampPair (k, v) with ⟨k2, w2⟩
      have hk2 : k2 = k := by
        have := clampPair_fst (k, v)
        rw [hcp] at this
        exact this
      subst hk2
      have hrhs : clampObj ((k2, v) :: rest) = (k2, w2) :: clampObj rest := by
        simp only [clampObj, List.map_cons]
        rw [hcp]
      have hlhs : updateFirst "reasoning" g ((k2, v) :: rest)
          = (k2, v) :: updateFirst "reasoning" g rest := by
        simp only [updateFirst, if_neg hk]
      have hlhs2 : clampObj ((k2, v) :: updateFirst "reasoning" g rest)
          = (k2, w2) :: clampObj (updateFirst "reasoning" g rest) := by
        simp only [clampObj, List.map_cons]
        rw [hcp]
      have hrhs2 : updateFirst "reasoning" g ((k2, w2) :: clampObj rest)
          = (k2, w2) :: updateFirst "reasoning" g (clampObj rest) := by
        simp only [updateFirst, if_neg hk]
      rw [hrhs, hlhs, hlhs2, ih, hrhs2]

theorem clampObj_normObj_eq (l : List (String × JValue)) :
    clampObj (normObj l) = updateFirst "reasoning" reasoningTrans (l.map cnPair) := by
  unfold normObj
  rw [clampObj_updateFirst_reasoning]
  unfold clampObj
  rw [List.map_map]
  rfl

theorem cnPair_reasoning_jObj (kvs : List (String × JValue)) :
    cnPair ("reasoning", .jObj kvs) = ("reasoning", .jObj kvs) := by
  have e : normPair ("reasoning", .jObj kvs) = ("reasoning", .jObj kvs) := by
    simp [normPair, reasoning_not_score]
  simp [cnPair, e, clampPair_nonscore _ _ reasoning_not_score]

theorem cnPair_reasoning_strip (v : JValue)
    (hfix : cnPair ("reasoning", v) = ("reasoning", v)) :
    ∀ s : String, v = .jStr s → pyStrip s = s := by
  intro s hs
  subst hs
  have e : cnPair ("reasoning", .jStr s) = ("reasoning", .jStr (pyStrip s)) := by
    have e1 : normPair ("reasoning", .jStr s) = ("reasoning", .jStr (pyStrip s)) := by
      simp [normPair, reasoning_not_score]
    simp [cnPair, e1, clampPair_nonscore _ _ reasoning_not_score]
  rw [e] at hfix
  have := congrArg Prod.snd hfix
  simpa using this

theorem cnPair_reasoningTrans_fix (v : JValue)
    (hfix : cnPair ("reasoning", v) = ("reasoning", v)) :
    cnPair ("reasoning", reasoningTrans v) = ("reasoning", reasoningTrans v) := by
  cases v with
  | jStr s =>
    have hs : pyStrip s = s := cnPair_reasoning_strip _ hfix s rfl
    by_cases hse : pyStrip s = ""
    · have e : reasoningTrans (.jStr s) = .jStr s := by
        simp [reasoningTrans, hse]
      rw [e]
      exact hfix
    · have e : reasoningTrans (.jStr s) = .jObj [("summary", .jStr (pyStrip s))] := by
        simp [reasoningTrans, hse]
      rw [e]
      exact cnPair_reasoning_jObj _
  | jArr xs =>
    have e : reasoningTrans (.jArr xs) = .jObj
        [("summary", .jStr (joinNonEmpty xs)), ("details", .jObj (itemPairs xs))] := rfl
    rw [e]
    exact cnPair_reasoning_jObj _
  | jNull => exact cnPair_reasoning_jObj []
  | jObj kvs => exact cnPair_reasoning_jObj kvs
  | jBool b => exact hfix
  | jInt n => exact hfix
  | jFloat q => exact hfix
  | jUndef => exact hfix

theorem reasoningTrans_twice (v : JValue)
    (hfix : cnPair ("reasoning", v) = ("reasoning", v)) :
    reasoningTrans (reasoningTrans v) = reasoningTrans v := by
  cases v with
  | jStr s =>
    by_cases hse : pyStrip s = ""
    · have e : reasoningTrans (.jStr s) = .jStr s := by
        simp [reasoningTrans, hse]
      rw [e, e]
    · have e : reasoningTrans (.jStr s) = .jObj [("summary", .jStr (pyStrip s))] := by
        simp [reasoningTrans, hse]
      rw [e]
      rfl
  | jArr xs => rfl
  | jNull => rfl
  | jObj kvs => rfl
  | jBool b => rfl
  | jInt n => rfl
  | jFloat q => rfl
  | jUndef => rfl

theorem map_cn_updateFirst_fix (m : List (String × JValue))
    (hm : m.map cnPair = m) :
    (updateFirst "reasoning" reasoningTrans m).map cnPair
      = updateFirst "reasoning" reasoningTrans m := by
  induction m with
  | nil => rfl
  | cons a rest ih =>
    rcases a with ⟨k, v⟩
    simp only [List.map_cons, List.cons.injEq] at hm
    obtain ⟨hhead, htail⟩ := hm
    by_cases hk : k = "reasoning"
    · subst hk
      simp only [updateFirst, if_pos rfl, if_true, eq_self_iff_true, List.map_cons]
      rw [cnPair_reasoningTrans_fix v hhead, htail]
    · simp only [updateFirst, if_neg hk, List.map_cons]
      rw [hhead, ih htail]

theorem updateFirst_reasoning_twice (m : List (String × JValue))
    (hm : m.map cnPair = m) :
    updateFirst "reasoning" reasoningTrans (updateFirst "reasoning" reasoningTrans m)
      = updateFirst "reasoning" reasoningTrans m := by
  induction m with
  | nil => rfl
  | cons a rest ih =>
    rcases a with ⟨k, v⟩
    simp only [List.map_cons, List.cons.injEq] at hm
    obtain ⟨hhead, htail⟩ := hm
    by_cases hk : k = "reasoning"
    · subst hk
      simp only [updateFirst, if_pos rfl, if_true, eq_self_iff_true]
      rw [reasoningTrans_twice v hhead]
    · simp only [updateFirst, if_neg hk]
      rw [ih htail]

theorem normclamp_idem (l : List (String × JValue)) :
    clampObj (normObj (clampObj (normObj l))) = clampObj (normObj l) := by
  rw [clampObj_normObj_eq l, clampObj_normObj_eq]
  have hmfix : (l.map cnPair).map cnPair = l.map cnPair := by
    rw [List.map_map]
    exact List.map_congr_left (fun a _ => cnPair_idem a)
  rw [map_cn_updateFirst_fix _ hmfix]
  exact updateFirst_reasoning_twice _ hmfix

theorem clampnorm_fix (x r : JValue)
    (h : validate_score_range (normalize_json_fields x) = .ok r) :
    validate_score_range (normalize_json_fields r) = .ok r := by
  cases x with
  | jObj l =>
    have e : validate_score_range (normalize_json_fields (.jObj l))
        = .ok (.jObj (clampObj (normObj l))) := rfl
    rw [e] at h
    cases h
    have e2 : validate_score_range
        (normalize_json_fields (.jObj (clampObj (normObj l))))
        = .ok (.jObj (clampObj (normObj (clampObj (normObj l))))) := rfl
    rw [e2, normclamp_idem]
  | jArr xs =>
    have hn : normalize_json_fields (.jArr xs) = .jArr xs := rfl
    rw [hn] at h
    simp only [validate_score_range] at h
    by_cases hg : (scoreFields.any fun f => xs.any fun x =>
        match x with | .jStr s => s == f | _ => false) = true
    · rw [if_pos hg] at h
      cases h
    · rw [if_neg hg] at h
      cases h
      rw [hn]
      simp only [validate_score_range]
      rw [if_neg hg]
  | jStr s =>
    have hn : normalize_json_fields (.jStr s) = .jStr s := rfl
    rw [hn] at h
    simp only [validate_score_range] at h
    by_cases hg : (scoreFields.any fun f => containsSubstr s f) = true
    · rw [if_pos hg] at h
      cases h
    · rw [if_neg hg] at h
      cases h
      rw [hn]
      simp only [validate_score_range]
      rw [if_neg hg]
  | jNull => cases h
  | jBool b => cases h
  | jInt n => cases h
  | jFloat q => cases h
  | jUndef => cases h

/-- C9 counterexample: the record `{cv_feedback: "a/*b*/c"}` is the
output of one application of clean → parse → normalize → clamp (the
input carries JSON `\/` escapes, so the first cleaning pass sees no
comment), but re-serializing it exposes a literal `/*b*/`, which the
second application's comment-stripping pass deletes: the second run
returns `{cv_feedback: "ac"}` — a different record. -/
theorem clean_mangles_reserialized_output :
    repair_pipeline "\x7b\"cv_feedback\": \"a\\/*b*\\/c\"\x7d"
      = .ok (.jObj [("cv_feedback", .jStr "a/*b*/c")]) ∧
    jsonDumps (.jObj [("cv_feedback", .jStr "a/*b*/c")])
      = "\x7b\"cv_feedback\": \"a/*b*/c\"\x7d" ∧
    repair_pipeline "\x7b\"cv_feedback\": \"a/*b*/c\"\x7d"
      = .ok (.jObj [("cv_feedback", .jStr "ac")]) ∧
    ("a/*b*/c" : String) ≠ "ac" :=
  ⟨rfl, rfl, rfl, by decide⟩

/-- C9 amended: the pipeline is idempotent at the record level —
normalize + clamp is a projection (applying it to its own output changes
nothing) — and the full string-level composite applied to the
re-serialized record yields the same record provided cleaning leaves the
serialized form unchanged and parsing round-trips it; it is *not*
idempotent for records whose string values re-expose cleanable patterns
(code fences, comment delimiters) when serialized. -/
theorem repair_pipeline_record_level_idempotent :
    (∀ l : List (String × JValue),
      validate_score_range (normalize_json_fields (.jObj (clampObj (normObj l))))
        = .ok (.jObj (clampObj (normObj l)))) ∧
    (∀ (s : String) (r : JValue), repair_pipeline s = .ok r →
      clean_json_string (jsonDumps r) = jsonDumps r →
      pyJsonLoads (jsonDumps r) = .ok r →
      repair_pipeline (jsonDumps r) = .ok r) := by
  constructor
  · intro l
    have e2 : validate_score_range
        (normalize_json_fields (.jObj (clampObj (normObj l))))
        = .ok (.jObj (clampObj (normObj (clampObj (normObj l))))) := rfl
    rw [e2, normclamp_idem]
  · intro s r h hclean hparse
    unfold repair_pipeline at h ⊢
    rw [hclean, hparse]
    rcases hp : pyJsonLoads (clean_json_string s) with e | x
    · rw [hp] at h
      cases h
    · rw [hp] at h
      exact clampnorm_fix x r h

/-- C9 amended, witness: a well-formed record round-trips: the second
application of the pipeline to its serialized output returns it
unchanged. -/
theorem repair_pipeline_record_level_idempotent_witness :
    repair_pipeline (jsonDumps (.jObj [("technical_skills", .jInt 4)]))
      = .ok (.jObj [("technical_skills", .jInt 4)]) :=
  repair_pipeline_record_level_idempotent.2
    "\x7b\"technical_skills\": 4\x7d"
    (.jObj [("technical_skills", .jInt 4)]) rfl rfl rfl
